import Mathlib

/-!
Shallow embedding of the orcas-desktop Tauri backend core, translated from
`src-tauri/src/edit_locks.rs`, `src-tauri/src/providers/mod.rs` and
`src-tauri/src/planning_agent.rs`.

Modelling conventions:
* the SQLite tables are explicit lists of rows threaded through each operation;
* fallible Rust functions returning `Result<T, String>` become `Except String T`;
* the database clock (`CURRENT_TIMESTAMP`, `datetime('now')`) is an explicit
  `now : Int` parameter counted in seconds, so `t` minutes are `t * 60` seconds;
* `f32` progress arithmetic is modelled over `ℚ` (all values involved are exact
  small decimals);
* Rust strings are Lean `String`s, except model ids in the provider layer,
  which are `List Char` so that the regex suffix manipulation is by list
  surgery.
-/

namespace Orcas

/-! ### Edit Lock Manager (`edit_locks.rs`) -/

/-- Row of the `agent_edit_locks` table (struct `EditLock` in `edit_locks.rs`);
`locked_at` is the insertion timestamp in seconds, assigned by the database. -/
structure EditLock where
  task_id : Int
  locked_by : String
  locked_at : Int
  original_content : Option String
  deriving DecidableEq, Repr

/-- Result of `check_edit_lock` (struct `LockStatus`). -/
structure LockStatus where
  is_locked : Bool
  locked_by : Option String
  deriving DecidableEq, Repr

/-- Embeds `acquire_edit_lock`: reject a `locked_by` other than `"agent"` or
`"user"`; return `false` and change nothing when a row for `task_id` exists;
otherwise insert one row (its `locked_at` is the database clock `now`). -/
def acquire_edit_lock (table : List EditLock) (task_id : Int) (locked_by : String)
    (original_content : Option String) (now : Int) :
    Except String (Bool × List EditLock) :=
  if locked_by ≠ "agent" ∧ locked_by ≠ "user" then
    .error "locked_by must be 'agent' or 'user'"
  else if table.any (fun r => r.task_id == task_id) then
    .ok (false, table)
  else
    .ok (true, table ++ [⟨task_id, locked_by, now, original_content⟩])

/-- Embeds `release_edit_lock`: `DELETE FROM agent_edit_locks WHERE task_id = ?`. -/
def release_edit_lock (table : List EditLock) (task_id : Int) : List EditLock :=
  table.filter (fun r => r.task_id != task_id)

/-- Embeds `check_edit_lock`: report the first row for `task_id`, if any. -/
def check_edit_lock (table : List EditLock) (task_id : Int) : LockStatus :=
  match table.find? (fun r => r.task_id == task_id) with
  | some r => ⟨true, some r.locked_by⟩
  | none => ⟨false, none⟩

/-- Embeds `cleanup_stale_locks`: delete every row whose `locked_at` plus
`timeout_minutes` minutes is strictly before `now`; return the number of rows
deleted together with the surviving table. -/
def cleanup_stale_locks (table : List EditLock) (timeout_minutes : Int) (now : Int) :
    Int × List EditLock :=
  ((table.countP (fun r => decide (r.locked_at + timeout_minutes * 60 < now)) : Int),
   table.filter (fun r => ! decide (r.locked_at + timeout_minutes * 60 < now)))

/-! ### Provider and model resolution (`providers/mod.rs`) -/

/-- The provider enum of `providers/mod.rs`. -/
inductive Provider
  | Anthropic
  | LiteLLM
  deriving DecidableEq, Repr

/-- Embeds `Provider::from_str`: match the lowercased selector; Rust's
`str::to_lowercase` acts as ASCII lowercasing on the relevant alphabet,
modelled by `Char.toLower`. The error carries the original string. -/
def Provider.from_str (s : List Char) : Except String Provider :=
  if s.map Char.toLower = "anthropic".toList then .ok .Anthropic
  else if s.map Char.toLower = "litellm".toList then .ok .LiteLLM
  else .error ("Unknown provider: " ++ String.mk s)

/-- Embeds struct `ModelInfo` of `providers/mod.rs`. -/
structure ModelInfo where
  id : List Char
  display_name : List Char
  display_label : List Char
  deriving DecidableEq, Repr

/-- The Unicode general category Nd (decimal digit), which is what the regex
crate's `\d` matches by default (Unicode-aware, `\p{Nd}`); the ranges are
those of Unicode 15.0. -/
def isNd (c : Char) : Bool :=
  let n := c.toNat
  (0x30 <= n && n <= 0x39) ||
  (0x660 <= n && n <= 0x669) ||
  (0x6F0 <= n && n <= 0x6F9) ||
  (0x7C0 <= n && n <= 0x7C9) ||
  (0x966 <= n && n <= 0x96F) ||
  (0x9E6 <= n && n <= 0x9EF) ||
  (0xA66 <= n && n <= 0xA6F) ||
  (0xAE6 <= n && n <= 0xAEF) ||
  (0xB66 <= n && n <= 0xB6F) ||
  (0xBE6 <= n && n <= 0xBEF) ||
  (0xC66 <= n && n <= 0xC6F) ||
  (0xCE6 <= n && n <= 0xCEF) ||
  (0xD66 <= n && n <= 0xD6F) ||
  (0xDE6 <= n && n <= 0xDEF) ||
  (0xE50 <= n && n <= 0xE59) ||
  (0xED0 <= n && n <= 0xED9) ||
  (0xF20 <= n && n <= 0xF29) ||
  (0x1040 <= n && n <= 0x1049) ||
  (0x1090 <= n && n <= 0x1099) ||
  (0x17E0 <= n && n <= 0x17E9) ||
  (0x1810 <= n && n <= 0x1819) ||
  (0x1946 <= n && n <= 0x194F) ||
  (0x19D0 <= n && n <= 0x19D9) ||
  (0x1A80 <= n && n <= 0x1A89) ||
  (0x1A90 <= n && n <= 0x1A99) ||
  (0x1B50 <= n && n <= 0x1B59) ||
  (0x1BB0 <= n && n <= 0x1BB9) ||
  (0x1C40 <= n && n <= 0x1C49) ||
  (0x1C50 <= n && n <= 0x1C59) ||
  (0xA620 <= n && n <= 0xA629) ||
  (0xA8D0 <= n && n <= 0xA8D9) ||
  (0xA900 <= n && n <= 0xA909) ||
  (0xA9D0 <= n && n <= 0xA9D9) ||
  (0xA9F0 <= n && n <= 0xA9F9) ||
  (0xAA50 <= n && n <= 0xAA59) ||
  (0xABF0 <= n && n <= 0xABF9) ||
  (0xFF10 <= n && n <= 0xFF19) ||
  (0x104A0 <= n && n <= 0x104A9) ||
  (0x10D30 <= n && n <= 0x10D39) ||
  (0x11066 <= n && n <= 0x1106F) ||
  (0x110F0 <= n && n <= 0x110F9) ||
  (0x11136 <= n && n <= 0x1113F) ||
  (0x111D0 <= n && n <= 0x111D9) ||
  (0x112F0 <= n && n <= 0x112F9) ||
  (0x11450 <= n && n <= 0x11459) ||
  (0x114D0 <= n && n <= 0x114D9) ||
  (0x11650 <= n && n <= 0x11659) ||
  (0x116C0 <= n && n <= 0x116C9) ||
  (0x11730 <= n && n <= 0x11739) ||
  (0x118E0 <= n && n <= 0x118E9) ||
  (0x11950 <= n && n <= 0x11959) ||
  (0x11C50 <= n && n <= 0x11C59) ||
  (0x11D50 <= n && n <= 0x11D59) ||
  (0x11DA0 <= n && n <= 0x11DA9) ||
  (0x11F50 <= n && n <= 0x11F59) ||
  (0x16A60 <= n && n <= 0x16A69) ||
  (0x16AC0 <= n && n <= 0x16AC9) ||
  (0x16B50 <= n && n <= 0x16B59) ||
  (0x1D7CE <= n && n <= 0x1D7FF) ||
  (0x1E140 <= n && n <= 0x1E149) ||
  (0x1E2F0 <= n && n <= 0x1E2F9) ||
  (0x1E4F0 <= n && n <= 0x1E4F9) ||
  (0x1E950 <= n && n <= 0x1E959) ||
  (0x1FBF0 <= n && n <= 0x1FBF9)

/-- Embeds `derive_friendly_name`: the regex `-(\d{8})$` removes a trailing
hyphen followed by exactly eight decimal digits (`\d` = `\p{Nd}`), when the
model id ends that way. -/
def derive_friendly_name (m : List Char) : List Char :=
  if 9 ≤ m.length ∧ m.getD (m.length - 9) ' ' = '-' ∧
      (m.drop (m.length - 8)).all isNd = true then
    m.take (m.length - 9)
  else m

/-- Embeds `resolve_model_name` with the fetched model list made explicit
(`fetch_models` performs the network call and fills `display_name`): return
the id of the first fetched model whose `display_name` equals the input,
and the input itself when none matches. -/
def resolve_model_name (models : List ModelInfo) (friendly_name : List Char) :
    List Char :=
  match models.find? (fun m => m.display_name == friendly_name) with
  | some m => m.id
  | none => friendly_name

/-! ### Planning agent (`planning_agent.rs`)

The agent's side effects are made explicit:
* `PlanState` is the observable world: the `subtasks` table, the trace of
  delivered progress events, and counters of chat requests issued and of
  emission attempts;
* `Env` is the outside world's behaviour: `chat i` is the (already parsed)
  outcome of the `i`-th chat-gateway round-trip — a transport failure or an
  unparseable body is its `.error` case — and `emitOk i` tells whether the
  `i`-th emission attempt is delivered (`none`) or fails (`some e`, the
  underlying Tauri error text).
Each Rust method becomes a function `PlanState → Except String α × PlanState`
returning its result together with the world as left behind, also on error
(committed subtask rows and delivered events survive a failed run). -/

/-- The `i32` machine integers of the source: `Agent.id` and the `agent_id`
column are `i32` (`database.rs`), so they range over `[-2^31, 2^31)`. -/
abbrev Int32 : Type := { z : Int // -2147483648 ≤ z ∧ z < 2147483648 }

instance : Inhabited Int32 := ⟨⟨0, by norm_num⟩⟩

instance : Repr Int32 := ⟨fun z n => reprPrec z.val n⟩

instance : ToString Int32 := ⟨fun z => toString z.val⟩

instance : OfNat Int32 2 := ⟨⟨2, by norm_num⟩⟩

/-- Rust's `as i32` cast of an `i64`: two's-complement truncation to the low
32 bits. -/
def asI32 (a : Int) : Int32 :=
  ⟨(a + 2147483648) % 4294967296 - 2147483648, by constructor <;> omega⟩

/-- Embeds struct `Agent` (`database.rs`), as loaded into `available_agents`. -/
structure Agent where
  id : Int32
  name : String
  model_name : String
  agent_prompt : String
  system_role : Option String
  deriving DecidableEq, Repr, Inhabited

/-- The fields `execute_create_subtask` reads from the tool-call JSON input:
`input["title"].as_str()`, `input["description"].as_str()`,
`input["agent_id"].as_i64()`; a `none` stands for an absent or ill-typed
field. -/
structure ToolInput where
  title : Option String
  description : Option String
  agent_id : Option Int
  deriving DecidableEq, Repr

/-- Embeds enum `ContentBlock`. -/
inductive ContentBlock
  | text (text : String)
  | toolUse (id : String) (name : String) (input : ToolInput)
  deriving DecidableEq, Repr

/-- Embeds struct `ClaudeResponse` (the `usage` field is dead code). -/
structure ClaudeResponse where
  content : List ContentBlock
  stop_reason : String
  deriving DecidableEq, Repr

/-- One `tool_result` JSON object fed back to the model; the success path
omits `is_error`, modelled as `false`. -/
structure ToolResult where
  tool_use_id : String
  content : String
  is_error : Bool
  deriving DecidableEq, Repr

/-- The content of a `ChatMessage`: the seed instruction text, an assistant
turn's raw content blocks, or a user turn carrying tool results. -/
inductive MsgContent
  | text (s : String)
  | blocks (bs : List ContentBlock)
  | results (rs : List ToolResult)
  deriving DecidableEq, Repr

/-- Embeds struct `ChatMessage` (`chat.rs`). -/
structure ChatMessage where
  role : String
  content : MsgContent
  deriving DecidableEq, Repr

/-- Row of the `subtasks` table as inserted by `execute_create_subtask`. -/
structure SubtaskRow where
  task_id : Int
  title : String
  description : String
  agent_id : Int32
  completed : Bool
  deriving DecidableEq, Repr

/-- The payload of one delivered `task-planning-progress` event. -/
structure ProgressEvent where
  task_id : Int
  status : String
  message : String
  progress : ℚ
  current_step : Option String
  deriving DecidableEq, Repr

/-- Embeds struct `PlanningResult`. -/
structure PlanningResult where
  success : Bool
  subtasks_created : Nat
  message : String
  deriving DecidableEq, Repr

/-- The observable world threaded through a planning run. -/
structure PlanState where
  subtasks : List SubtaskRow
  events : List ProgressEvent
  chatCalls : Nat
  emits : Nat
  deriving DecidableEq, Repr

/-- The environment's behaviour during a run. -/
structure Env where
  chat : Nat → Except String ClaudeResponse
  emitOk : Nat → Option String

/-- Embeds struct `PlanningAgent` (the app handle is the environment). -/
structure PlanningAgent where
  task_id : Int
  agent_prompt : String
  model_name : String
  available_agents : List Agent

/-- Embeds `PlanningAgent::emit_progress`: clamp `progress` into `[0, 1]`,
attempt delivery; a delivery failure is returned as an error (and the event is
not delivered). -/
def emit_progress (ag : PlanningAgent) (env : Env) (s : PlanState)
    (status message : String) (progress : ℚ) (current_step : Option String) :
    Except String Unit × PlanState :=
  let ev : ProgressEvent :=
    ⟨ag.task_id, status, message, max 0 (min 1 progress), current_step⟩
  match env.emitOk s.emits with
  | none => (.ok (), { s with events := s.events ++ [ev], emits := s.emits + 1 })
  | some e => (.error ("Failed to emit progress: " ++ e), { s with emits := s.emits + 1 })

/-- Embeds `PlanningAgent::execute_create_subtask`: extract the three fields
(the source reads `agent_id` with `as_i64()` and immediately truncates it
with `as i32`), validate the truncated id against `available_agents`, then
insert one subtask row. -/
def execute_create_subtask (ag : PlanningAgent) (s : PlanState) (input : ToolInput) :
    Except String String × PlanState :=
  match input.title with
  | none => (.error "Missing title", s)
  | some title =>
    match input.description with
    | none => (.error "Missing description", s)
    | some description =>
      match input.agent_id with
      | none => (.error "Missing agent_id", s)
      | some a =>
        let agent_id : Int32 := asI32 a
        if ag.available_agents.any (fun x => x.id == agent_id) then
          (.ok ("Successfully created subtask: '" ++ title ++ "'"),
           { s with subtasks :=
              s.subtasks ++ [⟨ag.task_id, title, description, agent_id, false⟩] })
        else
          (.error ("Invalid agent_id: " ++ toString agent_id), s)

/-- The tool-execution block of `plan_task`'s loop body: run the turn's
tool-use requests in order, collecting one `tool_result` per request;
a `create_subtask` success inserts a row, bumps the running count and emits a
`"creating"` progress event; any per-call failure becomes an error-tagged
result and processing continues. -/
def runToolCalls (ag : PlanningAgent) (env : Env) :
    List (String × String × ToolInput) → Nat → PlanState → List ToolResult →
    Except String (Nat × List ToolResult) × PlanState
  | [], created, s, acc => (.ok (created, acc), s)
  | (tool_id, tool_name, tool_input) :: rest, created, s, acc =>
    if tool_name = "create_subtask" then
      match execute_create_subtask ag s tool_input with
      | (.ok result, s1) =>
        let created1 := created + 1
        let progress : ℚ := 0.2 + min (0.6 * ((created1 : ℚ) / 5)) 0.6
        match emit_progress ag env s1 "creating"
            ("Created subtask " ++ toString created1 ++ " of estimated 3-7...")
            progress (some "Subtask Creation") with
        | (.ok _, s2) =>
          runToolCalls ag env rest created1 s2 (acc ++ [⟨tool_id, result, false⟩])
        | (.error e, s2) => (.error e, s2)
      | (.error e, s1) =>
        runToolCalls ag env rest created s1
          (acc ++ [⟨tool_id, "Tool execution error: " ++ e, true⟩])
    else
      runToolCalls ag env rest created s
        (acc ++ [⟨tool_id, "Unknown tool: " ++ tool_name, true⟩])

/-- `MAX_ITERATIONS` of `plan_task`. -/
def MAX_ITERATIONS : Nat := 20

/-- The `loop` of `plan_task`, with the remaining iteration budget as fuel:
the source increments `tool_use_iterations` and fails once it exceeds
`MAX_ITERATIONS`, so a call with fuel `rem` stands for the loop entered with
`tool_use_iterations = MAX_ITERATIONS - rem`. Each round issues one chat
request, checks `stop_reason`, extracts the turn's tool-use requests, executes
them, and appends the assistant turn plus the tool results to the
conversation. -/
def planLoop (ag : PlanningAgent) (env : Env) :
    Nat → List ChatMessage → Nat → PlanState → Except String Nat × PlanState
  | 0, _conv, _created, s =>
    (.error ("Planning exceeded maximum iterations (" ++ toString MAX_ITERATIONS ++ ")"), s)
  | rem + 1, conv, created, s =>
    let s0 : PlanState := { s with chatCalls := s.chatCalls + 1 }
    match env.chat s.chatCalls with
    | .error e => (.error e, s0)
    | .ok response =>
      if response.stop_reason = "end_turn" then
        (.ok created, s0)
      else if response.stop_reason ≠ "tool_use" then
        (.error ("Unexpected stop reason: " ++ response.stop_reason), s0)
      else
        let tool_calls := response.content.filterMap (fun b =>
          match b with
          | .text _ => none
          | .toolUse id name input => some (id, name, input))
        if tool_calls.isEmpty then
          (.error "Agent requested tool_use but provided no tool calls", s0)
        else
          match runToolCalls ag env tool_calls created s0 [] with
          | (.error e, s1) => (.error e, s1)
          | (.ok (created1, results), s1) =>
            planLoop ag env rem
              (conv ++ [⟨"assistant", .blocks response.content⟩,
                        ⟨"user", .results results⟩])
              created1 s1

/-- The fixed instruction text seeding the conversation in `plan_task`. -/
def seedUserMessage : String :=
  "Please analyze this task and create a comprehensive breakdown using the create_subtask tool. Create 3-7 subtasks that cover the complete workflow, and assign each to the most appropriate agent."

/-- Embeds `PlanningAgent::plan_task`: emit the two leading progress events,
run the bounded tool-use loop, then emit the finalizing event and return the
summary. -/
def plan_task (ag : PlanningAgent) (env : Env) (_task_title : String)
    (_task_description : Option String) (s : PlanState) :
    Except String PlanningResult × PlanState :=
  match emit_progress ag env s "analyzing" "Initializing AI planning agent..."
      0.1 (some "Initialization") with
  | (.error e, s1) => (.error e, s1)
  | (.ok _, s1) =>
    match emit_progress ag env s1 "planning" "AI agent analyzing task..."
        0.2 (some "Analysis") with
    | (.error e, s2) => (.error e, s2)
    | (.ok _, s2) =>
      match planLoop ag env MAX_ITERATIONS [⟨"user", .text seedUserMessage⟩] 0 s2 with
      | (.error e, s3) => (.error e, s3)
      | (.ok created, s3) =>
        match emit_progress ag env s3 "finalizing"
            "Planning complete, generating summary..." 0.9 (some "Finalization") with
        | (.error e, s4) => (.error e, s4)
        | (.ok _, s4) =>
          (.ok ⟨true, created,
            "Successfully created " ++ toString created ++ " subtasks using AI planning agent"⟩,
           s4)

/-- The fixed three-step plan of `fallback_planning`. -/
def fallbackSubtasks : List (String × String) :=
  [("Research and plan approach",
    "Gather requirements, research best practices, and develop a comprehensive execution plan"),
   ("Execute primary deliverables",
    "Complete the main task deliverables according to the researched plan and requirements"),
   ("Review and finalize output",
    "Quality check, refinements, and final validation of deliverables")]

/-- The `for (index, (title, description))` loop of `fallback_planning`:
round-robin assignment over `available_agents` (an empty pool is an error),
one `execute_create_subtask` and one progress event per step. -/
def fallbackLoop (ag : PlanningAgent) (env : Env) :
    List (String × String) → Nat → Nat → PlanState → Except String Nat × PlanState
  | [], _index, created, s => (.ok created, s)
  | (title, description) :: rest, index, created, s =>
    if ag.available_agents.isEmpty then
      (.error "No agents available for fallback planning", s)
    else
      let agent_id :=
        (ag.available_agents.getD (index % ag.available_agents.length) default).id
      match execute_create_subtask ag s ⟨some title, some description, some agent_id.val⟩ with
      | (.error e, s1) => (.error e, s1)
      | (.ok _, s1) =>
        let created1 := created + 1
        let progress : ℚ := 0.3 + 0.5 * ((created1 : ℚ) / 3)
        match emit_progress ag env s1 "fallback_creating"
            ("Fallback: Created subtask " ++ toString created1 ++ "/3")
            progress (some "Fallback Planning") with
        | (.error e, s2) => (.error e, s2)
        | (.ok _, s2) => fallbackLoop ag env rest (index + 1) created1 s2

/-- Embeds `PlanningAgent::fallback_planning`. -/
def fallback_planning (ag : PlanningAgent) (env : Env) (_task_title : String)
    (_task_description : Option String) (s : PlanState) :
    Except String PlanningResult × PlanState :=
  match fallbackLoop ag env fallbackSubtasks 0 0 s with
  | (.error e, s1) => (.error e, s1)
  | (.ok created, s1) =>
    (.ok ⟨true, created,
      "Created " ++ toString created ++ " subtasks using fallback planning (AI agent unavailable)"⟩,
     s1)

/-- Embeds `PlanningAgent::plan_task_with_fallback`: on any `plan_task` error,
emit the `"fallback"` event and run `fallback_planning` once. -/
def plan_task_with_fallback (ag : PlanningAgent) (env : Env) (task_title : String)
    (task_description : Option String) (s : PlanState) :
    Except String PlanningResult × PlanState :=
  match plan_task ag env task_title task_description s with
  | (.ok result, s1) => (.ok result, s1)
  | (.error _e, s1) =>
    match emit_progress ag env s1 "fallback" "AI planning unavailable, using fallback..."
        0.3 (some "Fallback") with
    | (.error e2, s2) => (.error e2, s2)
    | (.ok _, s2) => fallback_planning ag env task_title task_description s2

/-! ### Verification-side definitions -/

/-- The progress value attached to the `"creating"` event emitted after the
`n`-th successful subtask creation: `0.2 + min(0.6 * n / 5, 0.6)`. -/
def creatingProgress (n : Nat) : ℚ :=
  0.2 + min (0.6 * ((n : ℚ) / 5)) 0.6

/-- The progress values of the `"creating"` events emitted while the running
count goes from `a` to `a + k`. -/
def creatingProgresses (a k : Nat) : List ℚ :=
  (List.range k).map (fun i => creatingProgress (a + i + 1))

/-- Emission-faithfulness of a step from world `s` to world `t` with result
`r`: either every emission attempt the step made was delivered, or the step
stopped at its last, failed attempt and returned exactly that attempt's
error. -/
def EmitFaithful {α : Type} (env : Env) (s t : PlanState) (r : Except String α) : Prop :=
  (∀ i, s.emits ≤ i → i < t.emits → env.emitOk i = none) ∨
  (∃ e, s.emits < t.emits ∧ env.emitOk (t.emits - 1) = some e ∧
    r = .error ("Failed to emit progress: " ++ e) ∧
    ∀ i, s.emits ≤ i → i < t.emits - 1 → env.emitOk i = none)

/-- The subtask rows the fallback plan inserts for `items`, starting the
round-robin assignment at position `index`. -/
def fallbackRows (ag : PlanningAgent) : List (String × String) → Nat → List SubtaskRow
  | [], _index => []
  | (title, description) :: rest, index =>
    ⟨ag.task_id, title, description,
      (ag.available_agents.getD (index % ag.available_agents.length) default).id,
      false⟩ :: fallbackRows ag rest (index + 1)

/-! ### Helper lemmas -/

/-- `as i32` is the identity on values that already fit in an `i32`. -/
@[simp] theorem asI32_val (z : Int32) : asI32 z.val = z := by
  obtain ⟨v, h1, h2⟩ := z
  apply Subtype.ext
  show (v + 2147483648) % 4294967296 - 2147483648 = v
  omega

theorem creatingProgresses_append (a k1 k2 : Nat) :
    creatingProgresses a k1 ++ creatingProgresses (a + k1) k2 =
      creatingProgresses a (k1 + k2) := by
  unfold creatingProgresses
  rw [List.range_add, List.map_append, List.map_map]
  congr 1
  apply List.map_congr_left
  intro i _
  simp only [Function.comp_apply]
  congr 1
  omega

theorem clamp_unit_bounds (p : ℚ) : 0 ≤ max 0 (min 1 p) ∧ max 0 (min 1 p) ≤ 1 :=
  ⟨le_max_left _ _, max_le (by norm_num) (min_le_left _ _)⟩

theorem creatingProgress_bounds (n : Nat) :
    0 ≤ creatingProgress n ∧ creatingProgress n ≤ 1 := by
  unfold creatingProgress
  constructor
  · have h1 : (0 : ℚ) ≤ 0.6 * ((n : ℚ) / 5) := by positivity
    have h2 : (0 : ℚ) ≤ 0.6 := by norm_num
    have := le_min h1 h2
    linarith
  · have := min_le_right (0.6 * ((n : ℚ) / 5)) 0.6
    linarith

theorem clamp_creatingProgress (n : Nat) :
    max 0 (min 1 (creatingProgress n)) = creatingProgress n := by
  obtain ⟨h0, h1⟩ := creatingProgress_bounds n
  rw [min_eq_right h1, max_eq_right h0]

theorem emitFaithful_of_emits_eq {α : Type} (env : Env) {s t : PlanState}
    (h : s.emits = t.emits) (r : Except String α) : EmitFaithful env s t r :=
  Or.inl fun _ hle hlt => absurd (lt_of_le_of_lt hle (h ▸ hlt)) (lt_irrefl _)

theorem emitFaithful_comp {α β : Type} {env : Env} {s t u : PlanState} (a : α)
    {r : Except String β} (h1 : EmitFaithful env s t (.ok a))
    (h2 : EmitFaithful env t u r) (hst : s.emits ≤ t.emits) :
    EmitFaithful env s u r := by
  rcases h1 with h1 | ⟨e, _, _, habs, _⟩
  · rcases h2 with h2 | ⟨e, hlt, hidx, hr, hclean⟩
    · exact Or.inl fun i hle hilt => by
        by_cases hi : i < t.emits
        · exact h1 i hle hi
        · exact h2 i (le_of_not_lt hi) hilt
    · refine Or.inr ⟨e, lt_of_le_of_lt hst hlt, hidx, hr, fun i hle hilt => ?_⟩
      by_cases hi : i < t.emits
      · exact h1 i hle hi
      · exact hclean i (le_of_not_lt hi) hilt
  · exact Except.noConfusion habs

theorem emitFaithful_error_cast {α β : Type} {env : Env} {s t : PlanState}
    {msg : String} (h : EmitFaithful env s t (.error msg : Except String α)) :
    EmitFaithful env s t (.error msg : Except String β) := by
  rcases h with h | ⟨e, h1, h2, h3, h4⟩
  · exact Or.inl h
  · refine Or.inr ⟨e, h1, h2, ?_, h4⟩
    rw [Except.error.injEq] at h3 ⊢
    exact h3

theorem emitFaithful_shift {α : Type} {env : Env} {s s' t : PlanState}
    (hs : s.emits = s'.emits) {r : Except String α}
    (h : EmitFaithful env s' t r) : EmitFaithful env s t r := by
  unfold EmitFaithful at h ⊢
  rw [hs]
  exact h

theorem emit_progress_spec (ag : PlanningAgent) (env : Env) (s : PlanState)
    (st msg : String) (p : ℚ) (c : Option String) :
    (env.emitOk s.emits = none ∧
      emit_progress ag env s st msg p c =
        (.ok (), { s with
          events := s.events ++ [⟨ag.task_id, st, msg, max 0 (min 1 p), c⟩],
          emits := s.emits + 1 })) ∨
    (∃ e, env.emitOk s.emits = some e ∧
      emit_progress ag env s st msg p c =
        (.error ("Failed to emit progress: " ++ e), { s with emits := s.emits + 1 })) := by
  unfold emit_progress
  cases h : env.emitOk s.emits
  · exact Or.inl ⟨rfl, rfl⟩
  · exact Or.inr ⟨_, rfl, rfl⟩

theorem execute_create_subtask_spec (ag : PlanningAgent) (s : PlanState)
    (input : ToolInput) :
    (∃ e, execute_create_subtask ag s input = (.error e, s)) ∨
    (∃ title description agent_id,
      input = ⟨some title, some description, some agent_id⟩ ∧
      ag.available_agents.any (fun a => a.id == asI32 agent_id) = true ∧
      execute_create_subtask ag s input =
        (.ok ("Successfully created subtask: '" ++ title ++ "'"),
         { s with subtasks :=
            s.subtasks ++ [⟨ag.task_id, title, description, asI32 agent_id, false⟩] })) := by
  obtain ⟨t, d, a⟩ := input
  rcases t with _ | t
  · exact Or.inl ⟨_, rfl⟩
  rcases d with _ | d
  · exact Or.inl ⟨_, rfl⟩
  rcases a with _ | a
  · exact Or.inl ⟨_, rfl⟩
  by_cases hv : ag.available_agents.any (fun x => x.id == asI32 a) = true
  · exact Or.inr ⟨t, d, a, rfl, hv, by simp only [execute_create_subtask, hv, if_true]⟩
  · refine Or.inl ⟨"Invalid agent_id: " ++ toString (asI32 a), ?_⟩
    simp only [execute_create_subtask]
    rw [if_neg hv]

theorem countP_as_length_sub (p : EditLock → Bool) (l : List EditLock) :
    (l.countP p : Int) = (l.length : Int) - ((l.filter (fun r => ! p r)).length : Int) := by
  induction l with
  | nil => simp
  | cons x xs ih =>
    by_cases hx : p x = true <;>
      simp [List.countP_cons, List.filter_cons, hx] <;> omega

theorem find?_ext {α : Type} (l : List α) (p q : α → Bool)
    (h : ∀ a ∈ l, p a = q a) : l.find? p = l.find? q := by
  induction l with
  | nil => rfl
  | cons x xs ih =>
    have hx := h x (by simp)
    by_cases hq : q x = true
    · rw [List.find?_cons_of_pos _ (hx ▸ hq), List.find?_cons_of_pos _ hq]
    · rw [List.find?_cons_of_neg _ (by simp [hx, hq]),
        List.find?_cons_of_neg _ (by simp [hq])]
      exact ih fun a ha => h a (by simp [ha])

theorem derive_strip (p d : List Char) (hlen : d.length = 8)
    (hdig : d.all isNd = true) :
    derive_friendly_name (p ++ '-' :: d) = p := by
  have hl : (p ++ '-' :: d).length = p.length + 9 := by
    simp [List.length_append, hlen]
  have h9 : (p ++ '-' :: d).length - 9 = p.length := by omega
  have h8 : (p ++ '-' :: d).length - 8 = p.length + 1 := by omega
  have hdash : (p ++ '-' :: d).getD ((p ++ '-' :: d).length - 9) ' ' = '-' := by
    rw [h9, List.getD_eq_getElem?_getD, List.getElem?_append_right (Nat.le_refl p.length)]
    simp
  have hdrop : (p ++ '-' :: d).drop ((p ++ '-' :: d).length - 8) = d := by
    rw [h8, List.append_cons, List.drop_left']
    simp
  unfold derive_friendly_name
  rw [if_pos ⟨by omega, hdash, by rw [hdrop]; exact hdig⟩, h9, List.take_left]

theorem derive_keep (m : List Char)
    (h : ¬ ∃ p d, m = p ++ '-' :: d ∧ d.length = 8 ∧ d.all isNd = true) :
    derive_friendly_name m = m := by
  unfold derive_friendly_name
  split
  case isTrue hc =>
    obtain ⟨h9, hdash, hdig⟩ := hc
    exfalso
    apply h
    have hlt : m.length - 9 < m.length := by omega
    have hsplit : m = m.take (m.length - 9) ++ m.drop (m.length - 9) :=
      (List.take_append_drop (m.length - 9) m).symm
    have hidx : m.length - 9 + 1 = m.length - 8 := by omega
    have hcons : m.drop (m.length - 9) =
        m[m.length - 9] :: m.drop (m.length - 8) := by
      rw [List.drop_eq_getElem_cons hlt, hidx]
    have hget : m[m.length - 9] = '-' := by
      have := hdash
      rwa [List.getD_eq_getElem?_getD, List.getElem?_eq_getElem hlt] at this
    have hdl : (m.drop (m.length - 8)).length = 8 := by
      rw [List.length_drop]
      omega
    refine ⟨m.take (m.length - 9), m.drop (m.length - 8), ?_, hdl, hdig⟩
    rw [← hget, ← hcons]
    exact hsplit
  case isFalse => rfl

theorem creatingProgresses_succ (a k : Nat) :
    creatingProgresses a (1 + k) =
      creatingProgress (a + 1) :: creatingProgresses (a + 1) k := by
  rw [← creatingProgresses_append a 1 k]
  have h1 : List.range 1 = [0] := rfl
  simp [creatingProgresses, h1]

/-- Master invariant of the tool-execution block: it only appends subtask
rows, delivers only `"creating"` events carrying the consecutive progress
formula values, never touches the chat counter, is emission-faithful, and
returns `created + k` after `k` successful creations — unconditionally so
when every emission is delivered. -/
theorem runToolCalls_spec (ag : PlanningAgent) (env : Env) :
    ∀ (calls : List (String × String × ToolInput)) (created : Nat)
      (s : PlanState) (acc : List ToolResult)
      (r : Except String (Nat × List ToolResult)) (t : PlanState),
    runToolCalls ag env calls created s acc = (r, t) →
    ∃ k rows evs,
      t.subtasks = s.subtasks ++ rows ∧
      t.events = s.events ++ evs ∧
      t.chatCalls = s.chatCalls ∧
      s.emits ≤ t.emits ∧
      (∀ ev ∈ evs, ev.status = "creating") ∧
      evs.map (fun ev => ev.progress) = creatingProgresses created k ∧
      (∀ res, r = .ok res → res.1 = created + k) ∧
      EmitFaithful env s t r ∧
      ((∀ i, env.emitOk i = none) → ∃ rs, r = .ok (created + k, rs)) := by
  intro calls
  induction calls with
  | nil =>
    intro created s acc r t h
    simp only [runToolCalls, Prod.mk.injEq] at h
    obtain ⟨rfl, rfl⟩ := h
    refine ⟨0, [], [], by simp, by simp, rfl, Nat.le_refl _, by simp,
      by simp [creatingProgresses], ?_, emitFaithful_of_emits_eq env rfl _, ?_⟩
    · intro res hres
      cases hres
      simp
    · intro _
      exact ⟨acc, by simp⟩
  | cons head rest ih =>
    obtain ⟨tool_id, tool_name, tool_input⟩ := head
    intro created s acc r t h
    by_cases hn : tool_name = "create_subtask"
    · simp only [runToolCalls, hn, eq_self_iff_true, if_true, ite_true] at h
      rcases execute_create_subtask_spec ag s tool_input with ⟨e, he⟩ |
        ⟨title, description, agent_id, -, -, he⟩
      · rw [he] at h
        simp only at h
        exact ih _ _ _ _ _ h
      · rw [he] at h
        simp only at h
        set s1 : PlanState :=
          { s with subtasks :=
              s.subtasks ++ [⟨ag.task_id, title, description, asI32 agent_id, false⟩] } with hs1
        have hs1sub : s1.subtasks = s.subtasks ++ [⟨ag.task_id, title, description, asI32 agent_id, false⟩] := by
          rw [hs1]
        have hs1ev : s1.events = s.events := by rw [hs1]
        have hs1chat : s1.chatCalls = s.chatCalls := by rw [hs1]
        have hs1em : s1.emits = s.emits := by rw [hs1]
        rcases emit_progress_spec ag env s1 "creating"
            ("Created subtask " ++ toString (created + 1) ++ " of estimated 3-7...")
            (0.2 + min (0.6 * (((created + 1 : Nat) : ℚ) / 5)) 0.6)
            (some "Subtask Creation") with ⟨hok, hemi⟩ | ⟨e2, hsome, hemi⟩
        · rw [hemi] at h
          simp only at h
          obtain ⟨k, rows, evs, h1, h2, h3, h4, h5, h6, h7, h8, h9⟩ := ih _ _ _ _ _ h
          have hevp : (⟨ag.task_id, "creating",
              "Created subtask " ++ toString (created + 1) ++ " of estimated 3-7...",
              max 0 (min 1 (0.2 + min (0.6 * (((created + 1 : Nat) : ℚ) / 5)) 0.6)),
              some "Subtask Creation"⟩ : ProgressEvent).progress =
              creatingProgress (created + 1) := clamp_creatingProgress (created + 1)
        -- bundle the appended event
          refine ⟨1 + k, ⟨ag.task_id, title, description, asI32 agent_id, false⟩ :: rows,
            (⟨ag.task_id, "creating",
              "Created subtask " ++ toString (created + 1) ++ " of estimated 3-7...",
              max 0 (min 1 (0.2 + min (0.6 * (((created + 1 : Nat) : ℚ) / 5)) 0.6)),
              some "Subtask Creation"⟩ : ProgressEvent) :: evs,
            ?_, ?_, ?_, ?_, ?_, ?_, ?_, ?_, ?_⟩
          · rw [h1, hs1sub, List.append_assoc]
            simp
          · rw [h2]
            simp only at h2 ⊢
            rw [hs1ev]
            simp
          · rw [h3]
          · exact le_trans (Nat.le_succ s.emits) h4
          · intro ev hev
            rcases List.mem_cons.mp hev with hev | hev
            · rw [hev]
            · exact h5 ev hev
          · rw [List.map_cons, h6, creatingProgresses_succ, hevp]
          · intro res hres
            have := h7 res hres
            omega
          · refine emitFaithful_comp () (Or.inl ?_) h8 ?_
            · intro i hle hlt
              have hlt1 : i < s.emits + 1 := hlt
              have hi : i = s.emits := by omega
              rw [hi]
              exact hok
            · exact Nat.le_succ s.emits
          · intro hall
            obtain ⟨rs, hrs⟩ := h9 hall
            exact ⟨rs, by rw [hrs, Nat.add_assoc]⟩
        · rw [hemi] at h
          simp only [Prod.mk.injEq] at h
          obtain ⟨rfl, rfl⟩ := h
          refine ⟨0, [⟨ag.task_id, title, description, asI32 agent_id, false⟩], [],
            ?_, ?_, ?_, ?_, by simp, by simp [creatingProgresses], ?_, ?_, ?_⟩
          · exact hs1sub
          · rw [List.append_nil]
          · exact hs1chat
          · exact Nat.le_succ s.emits
          · intro res hres
            exact Except.noConfusion hres
          · refine Or.inr ⟨e2, ?_, ?_, rfl, ?_⟩
            · simp only
              omega
            · simp only
              rw [Nat.add_sub_cancel, hs1em]
              rw [hs1em] at hsome
              exact hsome
            · intro i hle hlt
              simp only at hlt
              rw [Nat.add_sub_cancel, hs1em] at hlt
              omega
          · intro hall
            rw [hall s1.emits] at hsome
            exact Option.noConfusion hsome
    · simp only [runToolCalls, hn, ite_false, if_false] at h
      exact ih _ _ _ _ _ h

/-- Master invariant of the bounded tool-use loop `planLoop`: it only appends
subtask rows and `"creating"` events carrying the consecutive progress formula
values, issues at most `fuel` chat requests, is emission-faithful, and on
success reports `created + k` after `k` creations. -/
theorem planLoop_spec (ag : PlanningAgent) (env : Env) :
    ∀ (fuel : Nat) (conv : List ChatMessage) (created : Nat) (s : PlanState)
      (r : Except String Nat) (t : PlanState),
    planLoop ag env fuel conv created s = (r, t) →
    ∃ k rows evs,
      t.subtasks = s.subtasks ++ rows ∧
      t.events = s.events ++ evs ∧
      s.chatCalls ≤ t.chatCalls ∧
      t.chatCalls ≤ s.chatCalls + fuel ∧
      s.emits ≤ t.emits ∧
      (∀ ev ∈ evs, ev.status = "creating") ∧
      evs.map (fun ev => ev.progress) = creatingProgresses created k ∧
      (∀ n, r = .ok n → n = created + k) ∧
      EmitFaithful env s t r := by
  intro fuel
  induction fuel with
  | zero =>
    intro conv created s r t h
    simp only [planLoop, Prod.mk.injEq] at h
    obtain ⟨rfl, rfl⟩ := h
    exact ⟨0, [], [], by simp, by simp, Nat.le_refl _, Nat.le_add_right _ _,
      Nat.le_refl _, by simp, by simp [creatingProgresses],
      fun n hn => Except.noConfusion hn, emitFaithful_of_emits_eq env rfl _⟩
  | succ fuel ih =>
    intro conv created s r t h
    simp only [planLoop] at h
    cases hchat : env.chat s.chatCalls with
    | error e =>
      rw [hchat] at h
      simp only [Prod.mk.injEq] at h
      obtain ⟨rfl, rfl⟩ := h
      exact ⟨0, [], [], by simp, by simp, Nat.le_succ _,
        Nat.add_le_add_left (Nat.succ_le_succ (Nat.zero_le fuel)) _,
        Nat.le_refl _, by simp, by simp [creatingProgresses],
        fun n hn => Except.noConfusion hn, emitFaithful_of_emits_eq env rfl _⟩
    | ok response =>
      rw [hchat] at h
      simp only at h
      by_cases hstop : response.stop_reason = "end_turn"
      · rw [if_pos hstop] at h
        simp only [Prod.mk.injEq] at h
        obtain ⟨rfl, rfl⟩ := h
        refine ⟨0, [], [], by simp, by simp, Nat.le_succ _,
          Nat.add_le_add_left (Nat.succ_le_succ (Nat.zero_le fuel)) _,
          Nat.le_refl _, by simp, by simp [creatingProgresses], ?_,
          emitFaithful_of_emits_eq env rfl _⟩
        intro n hn
        injection hn with hn2
        omega
      · rw [if_neg hstop] at h
        by_cases htool : response.stop_reason = "tool_use"
        · rw [if_neg (not_not_intro htool)] at h
          by_cases hemp : (response.content.filterMap (fun b =>
              match b with
              | .text _ => none
              | .toolUse id name input => some (id, name, input))).isEmpty = true
          · rw [if_pos hemp] at h
            simp only [Prod.mk.injEq] at h
            obtain ⟨rfl, rfl⟩ := h
            exact ⟨0, [], [], by simp, by simp, Nat.le_succ _,
              Nat.add_le_add_left (Nat.succ_le_succ (Nat.zero_le fuel)) _,
              Nat.le_refl _, by simp, by simp [creatingProgresses],
              fun n hn => Except.noConfusion hn, emitFaithful_of_emits_eq env rfl _⟩
          · rw [if_neg hemp] at h
            rcases hrun : runToolCalls ag env (response.content.filterMap (fun b =>
                match b with
                | .text _ => none
                | .toolUse id name input => some (id, name, input))) created
                { s with chatCalls := s.chatCalls + 1 } [] with ⟨r1, s1⟩
            cases r1 with
            | error e1 =>
              rw [hrun] at h
              simp only [Prod.mk.injEq] at h
              obtain ⟨rfl, rfl⟩ := h
              obtain ⟨k1, rows1, evs1, f1, f2, f3, f4, f5, f6, f7, f8, f9⟩ :=
                runToolCalls_spec ag env _ _ _ _ _ _ hrun
              have f3' : s1.chatCalls = s.chatCalls + 1 := f3
              refine ⟨k1, rows1, evs1, f1, f2, by omega, by omega, f4, f5, f6,
                fun n hn => Except.noConfusion hn, ?_⟩
              exact emitFaithful_shift rfl (emitFaithful_error_cast f8)
            | ok p =>
              obtain ⟨created1, results⟩ := p
              rw [hrun] at h
              simp only at h
              obtain ⟨k1, rows1, evs1, f1, f2, f3, f4, f5, f6, f7, f8, f9⟩ :=
                runToolCalls_spec ag env _ _ _ _ _ _ hrun
              obtain ⟨k2, rows2, evs2, g1, g2, g3, g4, g5, g6, g7, g8, g9⟩ :=
                ih _ _ _ _ _ h
              have f3' : s1.chatCalls = s.chatCalls + 1 := f3
              have hc1 : created1 = created + k1 := f7 (created1, results) rfl
              refine ⟨k1 + k2, rows1 ++ rows2, evs1 ++ evs2, ?_, ?_, by omega,
                by omega, ?_, ?_, ?_, ?_, ?_⟩
              · rw [g1, f1, List.append_assoc]
              · rw [g2, f2, List.append_assoc]
              · exact le_trans (show s.emits ≤ s1.emits from f4) g5
              · intro ev hev
                rcases List.mem_append.mp hev with hev | hev
                exacts [f5 ev hev, g6 ev hev]
              · rw [List.map_append, f6, g7, hc1, creatingProgresses_append]
              · intro n hn
                have := g8 n hn
                omega
              · refine emitFaithful_shift rfl
                  (emitFaithful_comp (created1, results) f8 g9 f4)
        · rw [if_pos htool] at h
          simp only [Prod.mk.injEq] at h
          obtain ⟨rfl, rfl⟩ := h
          exact ⟨0, [], [], by simp, by simp, Nat.le_succ _,
            Nat.add_le_add_left (Nat.succ_le_succ (Nat.zero_le fuel)) _,
            Nat.le_refl _, by simp, by simp [creatingProgresses],
            fun n hn => Except.noConfusion hn, emitFaithful_of_emits_eq env rfl _⟩

/-- When every emission is delivered and every chat turn answers with
`stop_reason = "tool_use"` and at least one tool-use block, the loop consumes
its whole budget and fails with the iteration-cap error, having issued exactly
`fuel` further chat requests. -/
theorem planLoop_exhaust (ag : PlanningAgent) (env : Env)
    (hemit : ∀ i, env.emitOk i = none) :
    ∀ (fuel : Nat) (conv : List ChatMessage) (created : Nat) (s : PlanState),
    (∀ i, i < fuel → ∃ resp, env.chat (s.chatCalls + i) = .ok resp ∧
        resp.stop_reason = "tool_use" ∧
        ∃ bid bname binput, ContentBlock.toolUse bid bname binput ∈ resp.content) →
    (planLoop ag env fuel conv created s).1 =
      .error ("Planning exceeded maximum iterations (" ++ toString MAX_ITERATIONS ++ ")") ∧
    (planLoop ag env fuel conv created s).2.chatCalls = s.chatCalls + fuel := by
  intro fuel
  induction fuel with
  | zero =>
    intro conv created s _
    exact ⟨rfl, by simp [planLoop]⟩
  | succ fuel ih =>
    intro conv created s hturn
    obtain ⟨resp, hchat, hstop, bid, bname, binput, hmem⟩ := hturn 0 (Nat.succ_pos fuel)
    rw [Nat.add_zero] at hchat
    have hne : ¬ resp.stop_reason = "end_turn" := by rw [hstop]; decide
    have hnn : ¬ resp.stop_reason ≠ "tool_use" := not_not_intro hstop
    have hfm : (bid, bname, binput) ∈ resp.content.filterMap (fun b =>
        match b with
        | .text _ => none
        | .toolUse id name input => some (id, name, input)) :=
      List.mem_filterMap.mpr ⟨ContentBlock.toolUse bid bname binput, hmem, rfl⟩
    have hempf : (resp.content.filterMap (fun b =>
        match b with
        | .text _ => none
        | .toolUse id name input => some (id, name, input))).isEmpty = false := by
      cases hl : resp.content.filterMap (fun b =>
          match b with
          | .text _ => none
          | .toolUse id name input => some (id, name, input)) with
      | nil => rw [hl] at hfm; exact absurd hfm (List.not_mem_nil _)
      | cons a l => rfl
    rcases hrun : runToolCalls ag env (resp.content.filterMap (fun b =>
        match b with
        | .text _ => none
        | .toolUse id name input => some (id, name, input))) created
        { s with chatCalls := s.chatCalls + 1 } [] with ⟨r1, s1⟩
    obtain ⟨k1, rows1, evs1, f1, f2, f3, f4, f5, f6, f7, f8, f9⟩ :=
      runToolCalls_spec ag env _ _ _ _ _ _ hrun
    obtain ⟨rs, hr1⟩ := f9 hemit
    subst hr1
    have f3' : s1.chatCalls = s.chatCalls + 1 := f3
    obtain ⟨conv2, hstep⟩ : ∃ conv2,
        planLoop ag env (fuel + 1) conv created s =
          planLoop ag env fuel conv2 (created + k1) s1 := by
      refine ⟨conv ++ [⟨"assistant", .blocks resp.content⟩, ⟨"user", .results rs⟩], ?_⟩
      simp only [planLoop]
      rw [hchat]
      simp only
      rw [if_neg hne, if_neg hnn, if_neg (by simp [hempf]), hrun]
    have hturn2 : ∀ i, i < fuel → ∃ resp2, env.chat (s1.chatCalls + i) = .ok resp2 ∧
        resp2.stop_reason = "tool_use" ∧
        ∃ bid2 bname2 binput2,
          ContentBlock.toolUse bid2 bname2 binput2 ∈ resp2.content := by
      intro i hi
      have := hturn (i + 1) (Nat.succ_lt_succ hi)
      rwa [show s.chatCalls + (i + 1) = s1.chatCalls + i by omega] at this
    obtain ⟨herr, hcnt⟩ := ih conv2 (created + k1) s1 hturn2
    rw [hstep]
    exact ⟨herr, by omega⟩

theorem filter_creating_of_all (evs : List ProgressEvent)
    (h : ∀ ev ∈ evs, ev.status = "creating") :
    evs.filter (fun ev => ev.status == "creating") = evs :=
  List.filter_eq_self.mpr fun ev hev => by rw [h ev hev]; rfl

theorem filter_creating_cons_of_ne (st : String) (hst : (st == "creating") = false)
    (tid : Int) (msg : String) (p : ℚ) (c : Option String) (l : List ProgressEvent) :
    ((⟨tid, st, msg, p, c⟩ : ProgressEvent) :: l).filter
        (fun ev => ev.status == "creating") =
      l.filter (fun ev => ev.status == "creating") := by
  rw [List.filter_cons_of_neg]
  simp [hst]

theorem filter_creating_append_single_of_ne (st : String)
    (hst : (st == "creating") = false) (tid : Int) (msg : String) (p : ℚ)
    (c : Option String) (l : List ProgressEvent) :
    (l ++ [(⟨tid, st, msg, p, c⟩ : ProgressEvent)]).filter
        (fun ev => ev.status == "creating") =
      l.filter (fun ev => ev.status == "creating") := by
  rw [List.filter_append, filter_creating_cons_of_ne st hst]
  simp

theorem bounds_of_creatingProgresses (evs : List ProgressEvent) (a k : Nat)
    (h : evs.map (fun ev => ev.progress) = creatingProgresses a k) :
    ∀ ev ∈ evs, 0 ≤ ev.progress ∧ ev.progress ≤ 1 := by
  intro ev hev
  have hm : ev.progress ∈ creatingProgresses a k := by
    rw [← h]
    exact List.mem_map_of_mem _ hev
  unfold creatingProgresses at hm
  obtain ⟨i, -, hq⟩ := List.mem_map.mp hm
  rw [← hq]
  exact creatingProgress_bounds _

theorem emitFaithful_ok_of_single {α : Type} (env : Env) {a b : PlanState} (x : α)
    (hab : b.emits = a.emits + 1) (hok : env.emitOk a.emits = none) :
    EmitFaithful env a b (.ok x) :=
  Or.inl fun i hle hlt => by
    rw [hab] at hlt
    have hi : i = a.emits := by omega
    rw [hi]
    exact hok

theorem emitFaithful_fail_of_single {α : Type} (env : Env) {a b : PlanState}
    {e : String} (hab : b.emits = a.emits + 1)
    (hsome : env.emitOk a.emits = some e) :
    EmitFaithful env a b (.error ("Failed to emit progress: " ++ e) : Except String α) :=
  Or.inr ⟨e, by omega, by rw [hab, Nat.add_sub_cancel]; exact hsome, rfl,
    fun i hle hlt => absurd hlt (by omega)⟩

theorem emit_progress_ok (ag : PlanningAgent) (env : Env) (s : PlanState)
    (st msg : String) (p : ℚ) (c : Option String)
    (hok : env.emitOk s.emits = none) :
    emit_progress ag env s st msg p c =
      (.ok (), { s with
        events := s.events ++ [⟨ag.task_id, st, msg, max 0 (min 1 p), c⟩],
        emits := s.emits + 1 }) := by
  rcases emit_progress_spec ag env s st msg p c with ⟨-, he⟩ | ⟨e, hsome, -⟩
  · exact he
  · rw [hok] at hsome
    exact Option.noConfusion hsome

/-- Master invariant of `plan_task`: it only appends subtask rows, every event
it delivers has progress in `[0, 1]`, its `"creating"` events carry exactly the
consecutive progress formula values starting at count 1, it issues at most
`MAX_ITERATIONS` chat requests, it is emission-faithful, and a successful
result reports exactly the number of creations. -/
theorem plan_task_spec (ag : PlanningAgent) (env : Env) (title : String)
    (desc : Option String) (s : PlanState) (r : Except String PlanningResult)
    (t : PlanState) (h : plan_task ag env title desc s = (r, t)) :
    ∃ k rows evs,
      t.subtasks = s.subtasks ++ rows ∧
      t.events = s.events ++ evs ∧
      (∀ ev ∈ evs, 0 ≤ ev.progress ∧ ev.progress ≤ 1) ∧
      (evs.filter (fun ev => ev.status == "creating")).map (fun ev => ev.progress) =
        creatingProgresses 0 k ∧
      s.chatCalls ≤ t.chatCalls ∧
      t.chatCalls ≤ s.chatCalls + MAX_ITERATIONS ∧
      s.emits ≤ t.emits ∧
      EmitFaithful env s t r ∧
      (∀ res, r = .ok res → res.subtasks_created = k) := by
  unfold plan_task at h
  rcases emit_progress_spec ag env s "analyzing" "Initializing AI planning agent..."
      0.1 (some "Initialization") with ⟨hok1, he1⟩ | ⟨e1, hsome1, he1⟩
  · rw [he1] at h
    simp only at h
    set S1 : PlanState := { s with
      events := s.events ++ [⟨ag.task_id, "analyzing", "Initializing AI planning agent...",
        max 0 (min 1 0.1), some "Initialization"⟩],
      emits := s.emits + 1 } with hS1
    have hS1em : S1.emits = s.emits + 1 := rfl
    have hA : EmitFaithful env s S1 (.ok ()) :=
      emitFaithful_ok_of_single env () rfl hok1
    rcases emit_progress_spec ag env S1 "planning" "AI agent analyzing task..."
        0.2 (some "Analysis") with ⟨hok2, he2⟩ | ⟨e2, hsome2, he2⟩
    · rw [he2] at h
      simp only at h
      set S2 : PlanState := { S1 with
        events := S1.events ++ [⟨ag.task_id, "planning", "AI agent analyzing task...",
          max 0 (min 1 0.2), some "Analysis"⟩],
        emits := S1.emits + 1 } with hS2
      have hS2em : S2.emits = s.emits + 2 := rfl
      have hB : EmitFaithful env S1 S2 (.ok ()) :=
        emitFaithful_ok_of_single env () rfl hok2
      rcases hloop : planLoop ag env MAX_ITERATIONS
          [⟨"user", MsgContent.text seedUserMessage⟩] 0 S2 with ⟨r2, s3⟩
      obtain ⟨kL, rowsL, evsL, g1, g2, g3, g4, g5, g6, g7, g8, g9⟩ :=
        planLoop_spec ag env _ _ _ _ _ _ hloop
      have g3' : s.chatCalls ≤ s3.chatCalls := g3
      have g4' : s3.chatCalls ≤ s.chatCalls + MAX_ITERATIONS := g4
      have hfilL := filter_creating_of_all evsL g6
      have hbndL := bounds_of_creatingProgresses evsL 0 kL g7
      cases r2 with
      | error e3 =>
        rw [hloop] at h
        simp only [Prod.mk.injEq] at h
        obtain ⟨rfl, rfl⟩ := h
        refine ⟨kL, rowsL,
          (⟨ag.task_id, "analyzing", "Initializing AI planning agent...",
            max 0 (min 1 0.1), some "Initialization"⟩ : ProgressEvent) ::
          (⟨ag.task_id, "planning", "AI agent analyzing task...",
            max 0 (min 1 0.2), some "Analysis"⟩ : ProgressEvent) :: evsL,
          ?_, ?_, ?_, ?_, g3', g4', ?_, ?_, fun res hres => Except.noConfusion hres⟩
        · rw [g1, hS2, hS1]
        · rw [g2, hS2, hS1]
          simp
        · intro ev hev
          rcases List.mem_cons.mp hev with hev | hev
          · rw [hev]
            exact clamp_unit_bounds _
          rcases List.mem_cons.mp hev with hev | hev
          · rw [hev]
            exact clamp_unit_bounds _
          · exact hbndL ev hev
        · rw [filter_creating_cons_of_ne "analyzing" (by decide),
            filter_creating_cons_of_ne "planning" (by decide), hfilL, g7]
        · have : S2.emits ≤ s3.emits := g5
          omega
        · exact emitFaithful_comp () hA
            (emitFaithful_comp () hB (emitFaithful_error_cast g9) (by omega))
            (by omega)
      | ok created =>
        rw [hloop] at h
        simp only at h
        rcases emit_progress_spec ag env s3 "finalizing"
            "Planning complete, generating summary..." 0.9 (some "Finalization")
          with ⟨hok3, he3⟩ | ⟨e3, hsome3, he3⟩
        · rw [he3] at h
          simp only [Prod.mk.injEq] at h
          obtain ⟨rfl, rfl⟩ := h
          have hkL : created = kL := by
            have := g8 created rfl
            omega
          refine ⟨kL, rowsL,
            (⟨ag.task_id, "analyzing", "Initializing AI planning agent...",
              max 0 (min 1 0.1), some "Initialization"⟩ : ProgressEvent) ::
            (⟨ag.task_id, "planning", "AI agent analyzing task...",
              max 0 (min 1 0.2), some "Analysis"⟩ : ProgressEvent) ::
            (evsL ++ [⟨ag.task_id, "finalizing", "Planning complete, generating summary...",
              max 0 (min 1 0.9), some "Finalization"⟩]),
            ?_, ?_, ?_, ?_, g3', g4', ?_, ?_, ?_⟩
          · rw [g1, hS2, hS1]
          · rw [g2, hS2, hS1]
            simp
          · intro ev hev
            rcases List.mem_cons.mp hev with hev | hev
            · rw [hev]
              exact clamp_unit_bounds _
            rcases List.mem_cons.mp hev with hev | hev
            · rw [hev]
              exact clamp_unit_bounds _
            rcases List.mem_append.mp hev with hev | hev
            · exact hbndL ev hev
            · rw [List.mem_singleton.mp hev]
              exact clamp_unit_bounds _
          · rw [filter_creating_cons_of_ne "analyzing" (by decide),
              filter_creating_cons_of_ne "planning" (by decide),
              filter_creating_append_single_of_ne "finalizing" (by decide),
              hfilL, g7]
          · exact le_trans (le_trans (by omega) g5) (Nat.le_succ s3.emits)
          · refine emitFaithful_comp () hA
              (emitFaithful_comp () hB
                (emitFaithful_comp created g9
                  (emitFaithful_ok_of_single env
                    (⟨true, created, "Successfully created " ++ toString created ++
                      " subtasks using AI planning agent"⟩ : PlanningResult) rfl hok3) g5)
                (by omega))
              (by omega)
          · intro res hres
            injection hres with hres2
            rw [← hres2]
            exact hkL
        · rw [he3] at h
          simp only [Prod.mk.injEq] at h
          obtain ⟨rfl, rfl⟩ := h
          refine ⟨kL, rowsL,
            (⟨ag.task_id, "analyzing", "Initializing AI planning agent...",
              max 0 (min 1 0.1), some "Initialization"⟩ : ProgressEvent) ::
            (⟨ag.task_id, "planning", "AI agent analyzing task...",
              max 0 (min 1 0.2), some "Analysis"⟩ : ProgressEvent) :: evsL,
            ?_, ?_, ?_, ?_, g3', g4', ?_, ?_, fun res hres => Except.noConfusion hres⟩
          · rw [g1, hS2, hS1]
          · rw [g2, hS2, hS1]
            simp
          · intro ev hev
            rcases List.mem_cons.mp hev with hev | hev
            · rw [hev]
              exact clamp_unit_bounds _
            rcases List.mem_cons.mp hev with hev | hev
            · rw [hev]
              exact clamp_unit_bounds _
            · exact hbndL ev hev
          · rw [filter_creating_cons_of_ne "analyzing" (by decide),
              filter_creating_cons_of_ne "planning" (by decide), hfilL, g7]
          · exact le_trans (le_trans (by omega) g5) (Nat.le_succ s3.emits)
          · refine emitFaithful_comp () hA
              (emitFaithful_comp () hB
                (emitFaithful_comp created g9
                  (emitFaithful_fail_of_single env rfl hsome3) g5)
                (by omega))
              (by omega)
    · rw [he2] at h
      simp only [Prod.mk.injEq] at h
      obtain ⟨rfl, rfl⟩ := h
      refine ⟨0, [],
        [⟨ag.task_id, "analyzing", "Initializing AI planning agent...",
          max 0 (min 1 0.1), some "Initialization"⟩],
        by simp [hS1], ?_, ?_,
        by rw [filter_creating_cons_of_ne "analyzing" (by decide)]
           simp [creatingProgresses],
        Nat.le_refl _, Nat.le_add_right _ _, ?_, ?_,
        fun res hres => Except.noConfusion hres⟩
      · rfl
      · intro ev hev
        rw [List.mem_singleton.mp hev]
        exact clamp_unit_bounds _
      · exact le_trans (Nat.le_succ s.emits) (Nat.le_succ S1.emits)
      · exact emitFaithful_comp () hA
          (emitFaithful_fail_of_single env rfl hsome2) (Nat.le_succ s.emits)
  · rw [he1] at h
    simp only [Prod.mk.injEq] at h
    obtain ⟨rfl, rfl⟩ := h
    refine ⟨0, [], [], by simp, by simp, by simp,
      by simp [creatingProgresses], Nat.le_refl _, Nat.le_add_right _ _,
      Nat.le_succ _, ?_, fun res hres => Except.noConfusion hres⟩
    exact emitFaithful_fail_of_single env rfl hsome1

theorem emitFaithful_ok_cast {α β : Type} {env : Env} {s t : PlanState} {x : α}
    (y : β) (h : EmitFaithful env s t (.ok x)) : EmitFaithful env s t (.ok y) := by
  rcases h with h | ⟨e, _, _, habs, _⟩
  · exact Or.inl h
  · exact Except.noConfusion habs

theorem getD_mem_any (l : List Agent) (i : Nat) (hne : l.isEmpty = false) :
    l.any (fun a => a.id == (l.getD (i % l.length) default).id) = true := by
  have hlen : 0 < l.length := by
    cases l with
    | nil => exact absurd hne (by simp)
    | cons a as => simp
  have hlt : i % l.length < l.length := Nat.mod_lt _ hlen
  have hmem : l.getD (i % l.length) default ∈ l := by
    rw [List.getD_eq_getElem?_getD, List.getElem?_eq_getElem hlt]
    exact List.getElem_mem hlt
  exact List.any_eq_true.mpr ⟨_, hmem, by simp⟩

/-- Invariant of the fallback loop: it only appends subtask rows and
`"fallback_creating"` events with clamped progress, never touches the chat
counter, and is emission-faithful. -/
theorem fallbackLoop_spec (ag : PlanningAgent) (env : Env) :
    ∀ (items : List (String × String)) (index created : Nat) (s : PlanState)
      (r : Except String Nat) (t : PlanState),
    fallbackLoop ag env items index created s = (r, t) →
    ∃ rows evs,
      t.subtasks = s.subtasks ++ rows ∧
      t.events = s.events ++ evs ∧
      t.chatCalls = s.chatCalls ∧
      s.emits ≤ t.emits ∧
      (∀ ev ∈ evs, 0 ≤ ev.progress ∧ ev.progress ≤ 1) ∧
      (∀ ev ∈ evs, ev.status = "fallback_creating") ∧
      EmitFaithful env s t r := by
  intro items
  induction items with
  | nil =>
    intro index created s r t h
    simp only [fallbackLoop, Prod.mk.injEq] at h
    obtain ⟨rfl, rfl⟩ := h
    exact ⟨[], [], by simp, by simp, rfl, Nat.le_refl _, by simp, by simp,
      emitFaithful_of_emits_eq env rfl _⟩
  | cons item rest ih =>
    obtain ⟨title, description⟩ := item
    intro index created s r t h
    simp only [fallbackLoop] at h
    by_cases hemp : ag.available_agents.isEmpty = true
    · rw [if_pos hemp] at h
      simp only [Prod.mk.injEq] at h
      obtain ⟨rfl, rfl⟩ := h
      exact ⟨[], [], by simp, by simp, rfl, Nat.le_refl _, by simp, by simp,
        emitFaithful_of_emits_eq env rfl _⟩
    · rw [if_neg hemp] at h
      rcases execute_create_subtask_spec ag s
          ⟨some title, some description,
           some (ag.available_agents.getD
             (index % ag.available_agents.length) default).id.val⟩
        with ⟨e, he⟩ | ⟨t2, d2, a2, hinp, -, he⟩
      · rw [he] at h
        simp only [Prod.mk.injEq] at h
        obtain ⟨rfl, rfl⟩ := h
        exact ⟨[], [], by simp, by simp, rfl, Nat.le_refl _, by simp, by simp,
          emitFaithful_of_emits_eq env rfl _⟩
      · simp only [ToolInput.mk.injEq, Option.some.injEq] at hinp
        obtain ⟨rfl, rfl, rfl⟩ := hinp
        rw [asI32_val] at he
        rw [he] at h
        simp only at h
        set SF : PlanState := { s with subtasks := s.subtasks ++
          [⟨ag.task_id, title, description,
            (ag.available_agents.getD (index % ag.available_agents.length) default).id,
            false⟩] } with hSF
        rcases emit_progress_spec ag env SF "fallback_creating"
            ("Fallback: Created subtask " ++ toString (created + 1) ++ "/3")
            (0.3 + 0.5 * (((created + 1 : Nat) : ℚ) / 3))
            (some "Fallback Planning") with ⟨hok, hemi⟩ | ⟨e2, hsome, hemi⟩
        · rw [hemi] at h
          simp only at h
          obtain ⟨rows2, evs2, k1, k2, k3, k4, k5, k6, k7⟩ := ih _ _ _ _ _ h
          refine ⟨⟨ag.task_id, title, description,
              (ag.available_agents.getD (index % ag.available_agents.length) default).id,
              false⟩ :: rows2,
            (⟨ag.task_id, "fallback_creating",
              "Fallback: Created subtask " ++ toString (created + 1) ++ "/3",
              max 0 (min 1 (0.3 + 0.5 * (((created + 1 : Nat) : ℚ) / 3))),
              some "Fallback Planning"⟩ : ProgressEvent) :: evs2,
            ?_, ?_, ?_, ?_, ?_, ?_, ?_⟩
          · rw [k1]
            simp
          · rw [k2]
            simp
          · rw [k3]
          · exact le_trans (Nat.le_succ s.emits) k4
          · intro ev hev
            rcases List.mem_cons.mp hev with hev | hev
            · rw [hev]
              exact clamp_unit_bounds _
            · exact k5 ev hev
          · intro ev hev
            rcases List.mem_cons.mp hev with hev | hev
            · rw [hev]
            · exact k6 ev hev
          · refine emitFaithful_comp () (Or.inl ?_) k7 ?_
            · intro i hle hlt
              have hlt1 : i < s.emits + 1 := hlt
              have hi : i = s.emits := by omega
              rw [hi]
              exact hok
            · exact Nat.le_succ s.emits
        · rw [hemi] at h
          simp only [Prod.mk.injEq] at h
          obtain ⟨rfl, rfl⟩ := h
          refine ⟨[⟨ag.task_id, title, description,
              (ag.available_agents.getD (index % ag.available_agents.length) default).id,
              false⟩], [],
            rfl, by simp, rfl, Nat.le_succ s.emits, by simp, by simp, ?_⟩
          refine Or.inr ⟨e2, Nat.lt_succ_self s.emits, ?_, rfl, ?_⟩
          · exact hsome
          · intro i hle hlt
            have hlt1 : i < s.emits := hlt
            exact absurd hlt1 (by omega)

/-- With a non-empty pool and a reliable event channel, the fallback loop
creates one subtask row per item, round-robin assigned, and succeeds. -/
theorem fallbackLoop_run (ag : PlanningAgent) (env : Env)
    (hne : ag.available_agents.isEmpty = false)
    (hemit : ∀ i, env.emitOk i = none) :
    ∀ (items : List (String × String)) (index created : Nat) (s : PlanState)
      (r : Except String Nat) (t : PlanState),
    fallbackLoop ag env items index created s = (r, t) →
    r = .ok (created + items.length) ∧
    t.subtasks = s.subtasks ++ fallbackRows ag items index := by
  intro items
  induction items with
  | nil =>
    intro index created s r t h
    simp only [fallbackLoop, Prod.mk.injEq] at h
    obtain ⟨rfl, rfl⟩ := h
    exact ⟨by simp, by simp [fallbackRows]⟩
  | cons item rest ih =>
    obtain ⟨title, description⟩ := item
    intro index created s r t h
    simp only [fallbackLoop] at h
    rw [if_neg (by simp [hne])] at h
    have hval := getD_mem_any ag.available_agents index hne
    have hexec : execute_create_subtask ag s
        ⟨some title, some description,
         some (ag.available_agents.getD (index % ag.available_agents.length) default).id.val⟩ =
        (.ok ("Successfully created subtask: '" ++ title ++ "'"),
         { s with subtasks := s.subtasks ++
           [⟨ag.task_id, title, description,
             (ag.available_agents.getD (index % ag.available_agents.length) default).id,
             false⟩] }) := by
      unfold execute_create_subtask
      simp only [asI32_val]
      rw [if_pos hval]
    rw [hexec] at h
    simp only at h
    rw [emit_progress_ok ag env _ "fallback_creating"
        ("Fallback: Created subtask " ++ toString (created + 1) ++ "/3")
        (0.3 + 0.5 * (((created + 1 : Nat) : ℚ) / 3))
        (some "Fallback Planning") (hemit _)] at h
    simp only at h
    obtain ⟨hr, hsub⟩ := ih (index + 1) (created + 1) _ r t h
    constructor
    · rw [hr]
      simp only [List.length_cons]
      rw [Nat.add_assoc, Nat.add_comm 1 rest.length]
    · rw [hsub]
      simp only [fallbackRows]
      rw [List.append_assoc]
      simp

/-- With a non-empty pool and a reliable event channel, `fallback_planning`
returns success with exactly 3 subtasks and appends the three fixed rows. -/
theorem fallback_planning_run (ag : PlanningAgent) (env : Env) (title : String)
    (desc : Option String) (s : PlanState) (r : Except String PlanningResult)
    (t : PlanState) (hne : ag.available_agents.isEmpty = false)
    (hemit : ∀ i, env.emitOk i = none)
    (h : fallback_planning ag env title desc s = (r, t)) :
    r = .ok ⟨true, 3, "Created 3 subtasks using fallback planning (AI agent unavailable)"⟩ ∧
    t.subtasks = s.subtasks ++ fallbackRows ag fallbackSubtasks 0 := by
  unfold fallback_planning at h
  rcases hloop : fallbackLoop ag env fallbackSubtasks 0 0 s with ⟨r1, t1⟩
  obtain ⟨hr1, hsub⟩ := fallbackLoop_run ag env hne hemit _ 0 0 s r1 t1 hloop
  subst hr1
  rw [hloop] at h
  simp only [Prod.mk.injEq] at h
  obtain ⟨rfl, rfl⟩ := h
  exact ⟨rfl, hsub⟩

/-- With an empty pool, `fallback_planning` fails with the no-agents error and
inserts nothing. -/
theorem fallback_planning_empty_pool (ag : PlanningAgent) (env : Env)
    (title : String) (desc : Option String) (s : PlanState)
    (r : Except String PlanningResult) (t : PlanState)
    (hemp : ag.available_agents.isEmpty = true)
    (h : fallback_planning ag env title desc s = (r, t)) :
    r = .error "No agents available for fallback planning" ∧ t = s := by
  unfold fallback_planning at h
  rw [show fallbackSubtasks = fallbackSubtasks.headI :: fallbackSubtasks.tail from rfl] at h
  simp only [fallbackLoop] at h
  rw [if_pos hemp] at h
  simp only [Prod.mk.injEq] at h
  obtain ⟨rfl, rfl⟩ := h
  exact ⟨rfl, rfl⟩

theorem filter_creating_nil_of_fallback (evs : List ProgressEvent)
    (h : ∀ ev ∈ evs, ev.status = "fallback_creating") :
    evs.filter (fun ev => ev.status == "creating") = [] := by
  rw [List.filter_eq_nil_iff]
  intro ev hev
  rw [h ev hev]
  decide

theorem fallback_planning_faithful (ag : PlanningAgent) (env : Env)
    (title : String) (desc : Option String) (s : PlanState)
    (r : Except String PlanningResult) (t : PlanState)
    (h : fallback_planning ag env title desc s = (r, t)) :
    EmitFaithful env s t r := by
  unfold fallback_planning at h
  rcases hloop : fallbackLoop ag env fallbackSubtasks 0 0 s with ⟨r1, t1⟩
  obtain ⟨rows, evs, -, -, -, -, -, -, q7⟩ := fallbackLoop_spec ag env _ _ _ _ _ _ hloop
  rw [hloop] at h
  cases r1 with
  | error e1 =>
    simp only [Prod.mk.injEq] at h
    obtain ⟨rfl, rfl⟩ := h
    exact emitFaithful_error_cast q7
  | ok n =>
    simp only [Prod.mk.injEq] at h
    obtain ⟨rfl, rfl⟩ := h
    exact emitFaithful_ok_cast _ q7

/-- Events delivered by a full `plan_task_with_fallback` run: all clamped into
`[0, 1]`, and the `"creating"` ones carry exactly the consecutive formula
values. -/
theorem with_fallback_events (ag : PlanningAgent) (env : Env) (title : String)
    (desc : Option String) (s : PlanState) (r : Except String PlanningResult)
    (t : PlanState) (h : plan_task_with_fallback ag env title desc s = (r, t)) :
    ∃ k evs,
      t.events = s.events ++ evs ∧
      (∀ ev ∈ evs, 0 ≤ ev.progress ∧ ev.progress ≤ 1) ∧
      (evs.filter (fun ev => ev.status == "creating")).map (fun ev => ev.progress) =
        creatingProgresses 0 k := by
  unfold plan_task_with_fallback at h
  rcases hpt : plan_task ag env title desc s with ⟨r1, s1⟩
  obtain ⟨k, rows, evs1, p1, p2, p3, p4, p5, p6, p7, p8, p9⟩ :=
    plan_task_spec ag env title desc s r1 s1 hpt
  rw [hpt] at h
  cases r1 with
  | ok res =>
    simp only [Prod.mk.injEq] at h
    obtain ⟨rfl, rfl⟩ := h
    exact ⟨k, evs1, p2, p3, p4⟩
  | error e1 =>
    simp only at h
    rcases emit_progress_spec ag env s1 "fallback"
        "AI planning unavailable, using fallback..." 0.3 (some "Fallback")
      with ⟨hok, hemi⟩ | ⟨e2, hsome, hemi⟩
    · rw [hemi] at h
      simp only at h
      unfold fallback_planning at h
      rcases hloop : fallbackLoop ag env fallbackSubtasks 0 0
          { s1 with events := s1.events ++ [⟨ag.task_id, "fallback",
              "AI planning unavailable, using fallback...", max 0 (min 1 0.3),
              some "Fallback"⟩], emits := s1.emits + 1 } with ⟨r2, t2⟩
      obtain ⟨rowsF, evsF, q1, q2, q3, q4, q5, q6, q7⟩ :=
        fallbackLoop_spec ag env _ _ _ _ _ _ hloop
      have ht2ev : t2.events = (s1.events ++ [⟨ag.task_id, "fallback",
          "AI planning unavailable, using fallback...", max 0 (min 1 0.3),
          some "Fallback"⟩]) ++ evsF := q2
      have hgoal : t2.events = s.events ++
          (evs1 ++ (⟨ag.task_id, "fallback",
            "AI planning unavailable, using fallback...", max 0 (min 1 0.3),
            some "Fallback"⟩ : ProgressEvent) :: evsF) := by
        rw [ht2ev, p2]
        simp [List.append_assoc]
      have hfil : ((evs1 ++ (⟨ag.task_id, "fallback",
            "AI planning unavailable, using fallback...", max 0 (min 1 0.3),
            some "Fallback"⟩ : ProgressEvent) :: evsF).filter
              (fun ev => ev.status == "creating")).map (fun ev => ev.progress) =
          creatingProgresses 0 k := by
        rw [List.filter_append, filter_creating_cons_of_ne "fallback" (by decide),
          filter_creating_nil_of_fallback evsF q6, List.append_nil, p4]
      have hbnd : ∀ ev ∈ (evs1 ++ (⟨ag.task_id, "fallback",
            "AI planning unavailable, using fallback...", max 0 (min 1 0.3),
            some "Fallback"⟩ : ProgressEvent) :: evsF),
          0 ≤ ev.progress ∧ ev.progress ≤ 1 := by
        intro ev hev
        rcases List.mem_append.mp hev with hev | hev
        · exact p3 ev hev
        rcases List.mem_cons.mp hev with hev | hev
        · rw [hev]
          exact clamp_unit_bounds _
        · exact q5 ev hev
      rw [hloop] at h
      cases r2 with
      | error e3 =>
        simp only [Prod.mk.injEq] at h
        obtain ⟨rfl, rfl⟩ := h
        exact ⟨k, _, hgoal, hbnd, hfil⟩
      | ok n =>
        simp only [Prod.mk.injEq] at h
        obtain ⟨rfl, rfl⟩ := h
        exact ⟨k, _, hgoal, hbnd, hfil⟩
    · rw [hemi] at h
      simp only [Prod.mk.injEq] at h
      obtain ⟨rfl, rfl⟩ := h
      exact ⟨k, evs1, p2, p3, p4⟩

/-! ### Claim theorems: edit locks and providers -/

/-- C4: `acquire_edit_lock` errors whenever `locked_by` is neither `"agent"`
nor `"user"`; with a valid `locked_by` it returns `false` and leaves the lock
table unchanged when a row for `task_id` already exists, and inserts exactly
one new row and returns `true` when none exists; `release_edit_lock` followed
by `acquire_edit_lock` with a valid `locked_by` always returns `true`. -/
theorem acquire_edit_lock_contract (table : List EditLock) (tid : Int)
    (lb : String) (oc : Option String) (now : Int) :
    (lb ≠ "agent" → lb ≠ "user" →
      acquire_edit_lock table tid lb oc now =
        .error "locked_by must be 'agent' or 'user'") ∧
    (lb = "agent" ∨ lb = "user" →
      ((∃ r ∈ table, r.task_id = tid) →
        acquire_edit_lock table tid lb oc now = .ok (false, table)) ∧
      ((∀ r ∈ table, r.task_id ≠ tid) →
        acquire_edit_lock table tid lb oc now =
          .ok (true, table ++ [⟨tid, lb, now, oc⟩])) ∧
      acquire_edit_lock (release_edit_lock table tid) tid lb oc now =
        .ok (true, release_edit_lock table tid ++ [⟨tid, lb, now, oc⟩])) := by
  have hvalid : ∀ h : lb = "agent" ∨ lb = "user", ¬(lb ≠ "agent" ∧ lb ≠ "user") := by
    rintro (h | h) <;> simp [h]
  refine ⟨fun h1 h2 => ?_, fun hv => ⟨fun hex => ?_, fun hall => ?_, ?_⟩⟩
  · simp [acquire_edit_lock, h1, h2]
  · have hany : table.any (fun r => r.task_id == tid) = true := by
      rcases hex with ⟨r, hr, hrt⟩
      exact List.any_eq_true.mpr ⟨r, hr, by simpa using hrt⟩
    simp [acquire_edit_lock, hvalid hv, hany]
  · have hany : ¬ table.any (fun r => r.task_id == tid) = true := by
      rw [List.any_eq_true]
      rintro ⟨r, hr, hrt⟩
      exact hall r hr (by simpa using hrt)
    simp [acquire_edit_lock, hvalid hv, hany]
  · have hany : ¬ (release_edit_lock table tid).any (fun r => r.task_id == tid) = true := by
      rw [List.any_eq_true]
      rintro ⟨r, hr, hrt⟩
      rw [release_edit_lock, List.mem_filter] at hr
      exact absurd (by simpa using hrt) (by simpa using hr.2)
    simp [acquire_edit_lock, hvalid hv, hany]

/-- Closed instance of `acquire_edit_lock_contract` at a concrete table. -/
theorem acquire_edit_lock_contract_witness :
    ("bot" : String) ≠ "agent" ∧
    acquire_edit_lock [] 7 "bot" none 0 = .error "locked_by must be 'agent' or 'user'" ∧
    acquire_edit_lock [⟨7, "user", 0, none⟩] 7 "agent" none 5 =
      .ok (false, [⟨7, "user", 0, none⟩]) ∧
    acquire_edit_lock [] 7 "user" (some "c") 3 = .ok (true, [⟨7, "user", 3, some "c"⟩]) ∧
    acquire_edit_lock (release_edit_lock [⟨7, "user", 0, none⟩] 7) 7 "agent" none 9 =
      .ok (true, release_edit_lock [⟨7, "user", 0, none⟩] 7 ++ [⟨7, "agent", 9, none⟩]) := by
  refine ⟨by decide, ?_, ?_, ?_, ?_⟩
  · exact (acquire_edit_lock_contract [] 7 "bot" none 0).1 (by decide) (by decide)
  · exact ((acquire_edit_lock_contract [⟨7, "user", 0, none⟩] 7 "agent" none 5).2
      (Or.inl rfl)).1 ⟨⟨7, "user", 0, none⟩, by decide, rfl⟩
  · exact (((acquire_edit_lock_contract [] 7 "user" (some "c") 3).2
      (Or.inr rfl)).2).1 (by intro r hr; cases hr)
  · exact (((acquire_edit_lock_contract [⟨7, "user", 0, none⟩] 7 "agent" none 9).2
      (Or.inl rfl)).2).2

/-- C6: for every timeout `t ≥ 0`, lock table and current time,
`cleanup_stale_locks` removes exactly the rows whose `locked_at` plus `t`
minutes is strictly before the current time, keeps every other row unchanged
in order, and returns the number of rows deleted. -/
theorem cleanup_stale_locks_exact (table : List EditLock) (t now : Int)
    (_ht : 0 ≤ t) :
    (∀ r : EditLock, r ∈ (cleanup_stale_locks table t now).2 ↔
        r ∈ table ∧ now ≤ r.locked_at + t * 60) ∧
    (cleanup_stale_locks table t now).2 =
        table.filter (fun r => ! decide (r.locked_at + t * 60 < now)) ∧
    (cleanup_stale_locks table t now).1 =
        (table.length : Int) - ((cleanup_stale_locks table t now).2.length : Int) := by
  refine ⟨fun r => ?_, rfl, ?_⟩
  · simp [cleanup_stale_locks, List.mem_filter, not_lt]
  · exact countP_as_length_sub _ table

/-- Closed instance of `cleanup_stale_locks_exact`: with a 1-minute timeout at
time 90, the lock taken at time 0 is stale and removed, the one at time 100 is
kept, and one deletion is reported. -/
theorem cleanup_stale_locks_exact_witness :
    (0 : Int) ≤ 1 ∧
    (cleanup_stale_locks [⟨1, "user", 0, none⟩, ⟨2, "agent", 100, none⟩] 1 90 =
      (1, [⟨2, "agent", 100, none⟩]) ∧
     (∀ r : EditLock,
        r ∈ (cleanup_stale_locks [⟨1, "user", 0, none⟩, ⟨2, "agent", 100, none⟩] 1 90).2 ↔
        r ∈ [⟨1, "user", 0, none⟩, ⟨2, "agent", 100, none⟩] ∧
          (90 : Int) ≤ r.locked_at + 1 * 60)) :=
  ⟨by decide,
   by decide,
   (cleanup_stale_locks_exact [⟨1, "user", 0, none⟩, ⟨2, "agent", 100, none⟩] 1 90
      (by decide)).1⟩

/-- C5: friendly-name derivation removes a trailing hyphen-plus-exactly-8-digit
suffix and is the identity on every other model id; model resolution returns
the full id of the first fetched model whose derived friendly name equals the
input and returns the input unchanged when no fetched model matches. -/
theorem model_name_resolution (models : List ModelInfo) (f : List Char) :
    (∀ p d, d.length = 8 → d.all isNd = true →
        derive_friendly_name (p ++ '-' :: d) = p) ∧
    (∀ m : List Char,
        (¬ ∃ p d, m = p ++ '-' :: d ∧ d.length = 8 ∧ d.all isNd = true) →
        derive_friendly_name m = m) ∧
    ((∀ mi ∈ models, mi.display_name = derive_friendly_name mi.id) →
      resolve_model_name models f =
        match models.find? (fun mi => derive_friendly_name mi.id == f) with
        | some mi => mi.id
        | none => f) := by
  refine ⟨derive_strip, derive_keep, fun h => ?_⟩
  rw [resolve_model_name,
    find?_ext models _ (fun mi => derive_friendly_name mi.id == f)
      (fun mi hmi => by rw [h mi hmi])]

/-- Closed instance of `model_name_resolution`: a dated id is stripped, a
non-dated id is kept, and resolution maps the friendly name back to the full
id while leaving an unknown name unchanged. -/
theorem model_name_resolution_witness :
    derive_friendly_name ("claude-sonnet-4".toList ++ '-' :: "20250514".toList) =
      "claude-sonnet-4".toList ∧
    derive_friendly_name "gpt-4o".toList = "gpt-4o".toList ∧
    resolve_model_name
      [⟨"claude-sonnet-4-20250514".toList, "claude-sonnet-4".toList, []⟩]
      "claude-sonnet-4".toList = "claude-sonnet-4-20250514".toList ∧
    resolve_model_name
      [⟨"claude-sonnet-4-20250514".toList, "claude-sonnet-4".toList, []⟩]
      "other-model".toList = "other-model".toList := by
  refine ⟨(model_name_resolution [] []).1 _ _ (by decide) (by decide), ?_, ?_, ?_⟩
  · refine (model_name_resolution [] []).2.1 _ ?_
    rintro ⟨p, d, hm, hlen, hdig⟩
    have hlen6 : ("gpt-4o".toList).length = (p ++ '-' :: d).length := by rw [hm]
    simp [hlen] at hlen6
  · have := (model_name_resolution
      [⟨"claude-sonnet-4-20250514".toList, "claude-sonnet-4".toList, []⟩]
      "claude-sonnet-4".toList).2.2 (by decide)
    rw [this]
    decide
  · have := (model_name_resolution
      [⟨"claude-sonnet-4-20250514".toList, "claude-sonnet-4".toList, []⟩]
      "other-model".toList).2.2 (by decide)
    rw [this]
    decide

/-- C9: provider-selector matching is case-insensitive at the ASCII level:
resolution succeeds exactly when the lowercased selector reads `"anthropic"`
or `"litellm"`, yielding the corresponding provider, and every other selector
fails with an `"Unknown provider"` error naming the input. -/
theorem provider_from_str_cases (s : List Char) :
    ((∃ p, Provider.from_str s = .ok p) ↔
      s.map Char.toLower = "anthropic".toList ∨
      s.map Char.toLower = "litellm".toList) ∧
    (s.map Char.toLower = "anthropic".toList →
      Provider.from_str s = .ok .Anthropic) ∧
    (s.map Char.toLower = "litellm".toList →
      Provider.from_str s = .ok .LiteLLM) ∧
    (s.map Char.toLower ≠ "anthropic".toList →
      s.map Char.toLower ≠ "litellm".toList →
      Provider.from_str s = .error ("Unknown provider: " ++ String.mk s)) := by
  by_cases h1 : s.map Char.toLower = "anthropic".toList
  · refine ⟨⟨fun _ => Or.inl h1, fun _ => ⟨.Anthropic, by simp [Provider.from_str, h1]⟩⟩,
      fun _ => by simp [Provider.from_str, h1],
      fun h2 => absurd (h1.symm.trans h2) (by decide),
      fun hn => absurd h1 hn⟩
  · by_cases h2 : s.map Char.toLower = "litellm".toList
    · refine ⟨⟨fun _ => Or.inr h2, fun _ => ⟨.LiteLLM, by simp [Provider.from_str, h1, h2]⟩⟩,
        fun ha => absurd (ha.symm.trans h2) (by decide),
        fun _ => by simp [Provider.from_str, h1, h2],
        fun _ hn => absurd h2 hn⟩
    · refine ⟨⟨fun ⟨p, hp⟩ => ?_, fun h => h.elim (absurd · h1) (absurd · h2)⟩,
        fun ha => absurd ha h1, fun hl => absurd hl h2,
        fun _ _ => by unfold Provider.from_str; rw [if_neg h1, if_neg h2]⟩
      unfold Provider.from_str at hp
      rw [if_neg h1, if_neg h2] at hp
      exact Except.noConfusion hp

/-- Closed instance of `provider_from_str_cases`: `"Anthropic"` and
`"LITELLM"` are accepted, `"openai"` is rejected with the error naming it. -/
theorem provider_from_str_cases_witness :
    Provider.from_str "Anthropic".toList = .ok .Anthropic ∧
    Provider.from_str "LITELLM".toList = .ok .LiteLLM ∧
    Provider.from_str "openai".toList =
      .error ("Unknown provider: " ++ String.mk "openai".toList) :=
  ⟨(provider_from_str_cases "Anthropic".toList).2.1 (by decide),
   (provider_from_str_cases "LITELLM".toList).2.2.1 (by decide),
   (provider_from_str_cases "openai".toList).2.2.2 (by decide) (by decide)⟩

/-! ### Claim theorems: planning agent -/

/-- C1: `plan_task` performs at most 20 chat-gateway round-trips; and when the
event channel is reliable and every turn answers `stop_reason = "tool_use"`
with at least one tool call, it stops after exactly 20 round-trips with the
"Planning exceeded maximum iterations (20)" error, issuing no 21st request. -/
theorem plan_task_iteration_cap (ag : PlanningAgent) (env : Env) (title : String)
    (desc : Option String) (s : PlanState) :
    (plan_task ag env title desc s).2.chatCalls ≤ s.chatCalls + 20 ∧
    ((∀ i, env.emitOk i = none) →
      (∀ i, i < 20 → ∃ resp, env.chat (s.chatCalls + i) = .ok resp ∧
          resp.stop_reason = "tool_use" ∧
          ∃ bid bname binput, ContentBlock.toolUse bid bname binput ∈ resp.content) →
      (plan_task ag env title desc s).1 =
        .error "Planning exceeded maximum iterations (20)" ∧
      (plan_task ag env title desc s).2.chatCalls = s.chatCalls + 20) := by
  constructor
  · rcases hpt : plan_task ag env title desc s with ⟨r, t⟩
    obtain ⟨k, rows, evs, -, -, -, -, -, hup, -, -, -⟩ :=
      plan_task_spec ag env title desc s r t hpt
    exact hup
  · intro hemit hturn
    obtain ⟨u1, hu1, hu1c⟩ : ∃ u, emit_progress ag env s "analyzing"
        "Initializing AI planning agent..." 0.1 (some "Initialization") = (.ok (), u) ∧
        u.chatCalls = s.chatCalls :=
      ⟨_, emit_progress_ok ag env s _ _ _ _ (hemit _), rfl⟩
    obtain ⟨u2, hu2, hu2c⟩ : ∃ u, emit_progress ag env u1 "planning"
        "AI agent analyzing task..." 0.2 (some "Analysis") = (.ok (), u) ∧
        u.chatCalls = u1.chatCalls :=
      ⟨_, emit_progress_ok ag env u1 _ _ _ _ (hemit _), rfl⟩
    rcases hloop : planLoop ag env MAX_ITERATIONS
        [⟨"user", MsgContent.text seedUserMessage⟩] 0 u2 with ⟨r2, s3⟩
    have hturn2 : ∀ i, i < MAX_ITERATIONS → ∃ resp,
        env.chat (u2.chatCalls + i) = .ok resp ∧ resp.stop_reason = "tool_use" ∧
        ∃ bid bname binput, ContentBlock.toolUse bid bname binput ∈ resp.content := by
      intro i hi
      rw [hu2c, hu1c]
      exact hturn i hi
    obtain ⟨herr, hcnt⟩ := planLoop_exhaust ag env hemit MAX_ITERATIONS
      [⟨"user", MsgContent.text seedUserMessage⟩] 0 u2 hturn2
    rw [hloop] at herr hcnt
    simp only at herr hcnt
    subst herr
    have hpt2 : plan_task ag env title desc s =
        (.error ("Planning exceeded maximum iterations (" ++
          toString MAX_ITERATIONS ++ ")"), s3) := by
      unfold plan_task
      rw [hu1]
      simp only
      rw [hu2]
      simp only
      rw [hloop]
    rw [hpt2]
    refine ⟨rfl, ?_⟩
    simp only
    rw [hcnt, hu2c, hu1c]
    rfl

/-- Closed instance of `plan_task_iteration_cap`: an environment that always
answers `tool_use` with one (unknown-tool) call drives `plan_task` into the
iteration-cap error after exactly 20 chat requests. -/
theorem plan_task_iteration_cap_witness :
    (plan_task ⟨1, "p", "m", []⟩
        ⟨fun _ => .ok ⟨[ContentBlock.toolUse "t" "x" ⟨none, none, none⟩], "tool_use"⟩,
         fun _ => none⟩ "T" none ⟨[], [], 0, 0⟩).1 =
      .error "Planning exceeded maximum iterations (20)" ∧
    (plan_task ⟨1, "p", "m", []⟩
        ⟨fun _ => .ok ⟨[ContentBlock.toolUse "t" "x" ⟨none, none, none⟩], "tool_use"⟩,
         fun _ => none⟩ "T" none ⟨[], [], 0, 0⟩).2.chatCalls = 0 + 20 :=
  (plan_task_iteration_cap ⟨1, "p", "m", []⟩
      ⟨fun _ => .ok ⟨[ContentBlock.toolUse "t" "x" ⟨none, none, none⟩], "tool_use"⟩,
       fun _ => none⟩ "T" none ⟨[], [], 0, 0⟩).2
    (fun _ => rfl)
    (fun i _ => ⟨⟨[ContentBlock.toolUse "t" "x" ⟨none, none, none⟩], "tool_use"⟩,
      rfl, rfl, "t", "x", ⟨none, none, none⟩, by simp⟩)

/-- C2 (amended): a tool-use request whose name is `"create_subtask"` but
whose `agent_id` is missing or whose `as i32` truncation is not the id of any
pooled agent, or whose name is not `"create_subtask"`, inserts no subtask
row, appends an error-tagged tool result for its `tool_use_id`, and
processing continues with the remaining requests from the unchanged state.
(The claim as stated — validation of the raw `agent_id` — is refuted by
`create_subtask_wrapped_agent_id_counterexample`: the source truncates the
`as_i64` value with `as i32` before comparing it to the pool.) -/
theorem invalid_tool_call_is_nonfatal (ag : PlanningAgent) (env : Env)
    (tool_id tool_name : String) (tool_input : ToolInput)
    (rest : List (String × String × ToolInput)) (created : Nat)
    (s : PlanState) (acc : List ToolResult)
    (h : tool_name = "create_subtask" →
      ∀ a, tool_input.agent_id = some a →
        ag.available_agents.any (fun x => x.id == asI32 a) = false) :
    ∃ msg, runToolCalls ag env ((tool_id, tool_name, tool_input) :: rest) created s acc =
      runToolCalls ag env rest created s (acc ++ [⟨tool_id, msg, true⟩]) := by
  by_cases hn : tool_name = "create_subtask"
  · have hex : ∃ e, execute_create_subtask ag s tool_input = (.error e, s) := by
      rcases execute_create_subtask_spec ag s tool_input with he | ⟨t2, d2, a2, hinp, hv, -⟩
      · exact he
      · exfalso
        rw [h hn a2 (by rw [hinp])] at hv
        exact Bool.noConfusion hv
    obtain ⟨e, he⟩ := hex
    refine ⟨"Tool execution error: " ++ e, ?_⟩
    simp only [runToolCalls, hn, eq_self_iff_true, if_true, ite_true]
    rw [he]
  · exact ⟨"Unknown tool: " ++ tool_name, by
      simp only [runToolCalls, hn, ite_false, if_false]⟩

/-- Closed instance of `invalid_tool_call_is_nonfatal`: a `create_subtask`
request naming agent 99, absent from a pool holding only agent 2, yields an
error result and an unchanged state. -/
theorem invalid_tool_call_is_nonfatal_witness :
    ∃ msg,
      runToolCalls ⟨1, "plan", "m", [⟨2, "worker", "m2", "", none⟩]⟩
        ⟨fun _ => .error "unused", fun _ => none⟩
        [("tu1", "create_subtask", ⟨some "T", some "D", some 99⟩)] 0 ⟨[], [], 0, 0⟩ [] =
      runToolCalls ⟨1, "plan", "m", [⟨2, "worker", "m2", "", none⟩]⟩
        ⟨fun _ => .error "unused", fun _ => none⟩
        [] 0 ⟨[], [], 0, 0⟩ ([] ++ [⟨"tu1", msg, true⟩]) :=
  invalid_tool_call_is_nonfatal ⟨1, "plan", "m", [⟨2, "worker", "m2", "", none⟩]⟩
    ⟨fun _ => .error "unused", fun _ => none⟩ "tu1" "create_subtask"
    ⟨some "T", some "D", some 99⟩ [] 0 ⟨[], [], 0, 0⟩ []
    (fun _ a ha => by
      injection ha with ha2
      subst ha2
      decide)

/-- Counterexample to C2 as stated: the source truncates `agent_id` with
`as i32` before validating it against the pool (`planning_agent.rs`,
`as_i64()? as i32`). A `create_subtask` request naming agent
`4294967298` (= 2^32 + 2), which is the id of no pooled agent, is accepted
against a pool holding only agent 2: `execute_create_subtask` inserts a row
(assigned to agent 2) and succeeds, and the tool-use loop appends a tool
result with `is_error = false` rather than an error-tagged one. -/
theorem create_subtask_wrapped_agent_id_counterexample :
    ([(⟨2, "worker", "m2", "", none⟩ : Agent)].all
        (fun x => decide (x.id.val ≠ 4294967298)) = true) ∧
    execute_create_subtask ⟨1, "plan", "m", [⟨2, "worker", "m2", "", none⟩]⟩
        ⟨[], [], 0, 0⟩ ⟨some "T", some "D", some 4294967298⟩ =
      (.ok "Successfully created subtask: 'T'",
       ⟨[⟨1, "T", "D", 2, false⟩], [], 0, 0⟩) ∧
    (runToolCalls ⟨1, "plan", "m", [⟨2, "worker", "m2", "", none⟩]⟩
        ⟨fun _ => .error "unused", fun _ => none⟩
        [("tu1", "create_subtask", ⟨some "T", some "D", some 4294967298⟩)]
        0 ⟨[], [], 0, 0⟩ []).1 =
      .ok (1, [⟨"tu1", "Successfully created subtask: 'T'", false⟩]) :=
  ⟨by decide, rfl, rfl⟩

/-- C3: when `plan_task` fails and the event channel is reliable,
`plan_task_with_fallback` creates exactly the three fixed subtasks, each
round-robin-assigned over the pool, when the pool is non-empty, and fails
with the no-agents error creating nothing when the pool is empty. -/
theorem plan_task_with_fallback_fixed_plan (ag : PlanningAgent) (env : Env)
    (title : String) (desc : Option String) (s : PlanState)
    (hemit : ∀ i, env.emitOk i = none) (e : String)
    (herr : (plan_task ag env title desc s).1 = .error e) :
    (ag.available_agents.isEmpty = false →
      (plan_task_with_fallback ag env title desc s).1 =
        .ok ⟨true, 3, "Created 3 subtasks using fallback planning (AI agent unavailable)"⟩ ∧
      (plan_task_with_fallback ag env title desc s).2.subtasks =
        (plan_task ag env title desc s).2.subtasks ++
          [⟨ag.task_id, "Research and plan approach",
            "Gather requirements, research best practices, and develop a comprehensive execution plan",
            (ag.available_agents.getD (0 % ag.available_agents.length) default).id, false⟩,
           ⟨ag.task_id, "Execute primary deliverables",
            "Complete the main task deliverables according to the researched plan and requirements",
            (ag.available_agents.getD (1 % ag.available_agents.length) default).id, false⟩,
           ⟨ag.task_id, "Review and finalize output",
            "Quality check, refinements, and final validation of deliverables",
            (ag.available_agents.getD (2 % ag.available_agents.length) default).id, false⟩]) ∧
    (ag.available_agents.isEmpty = true →
      (plan_task_with_fallback ag env title desc s).1 =
        .error "No agents available for fallback planning" ∧
      (plan_task_with_fallback ag env title desc s).2.subtasks =
        (plan_task ag env title desc s).2.subtasks) := by
  rcases hpt : plan_task ag env title desc s with ⟨r1, s1⟩
  rw [hpt] at herr
  simp only at herr
  subst herr
  obtain ⟨u, hu, husub⟩ : ∃ u, emit_progress ag env s1 "fallback"
      "AI planning unavailable, using fallback..." 0.3 (some "Fallback") =
        (.ok (), u) ∧ u.subtasks = s1.subtasks :=
    ⟨_, emit_progress_ok ag env s1 _ _ _ _ (hemit _), rfl⟩
  have hwf : plan_task_with_fallback ag env title desc s =
      fallback_planning ag env title desc u := by
    unfold plan_task_with_fallback
    rw [hpt]
    simp only
    rw [hu]
  constructor
  · intro hne
    rcases hfb : fallback_planning ag env title desc u with ⟨r2, t2⟩
    obtain ⟨hr2, hsub⟩ := fallback_planning_run ag env title desc _ r2 t2 hne hemit hfb
    constructor
    · rw [hwf, hfb]
      exact hr2
    · simp only [hwf, hfb, hpt]
      rw [hsub, husub]
      simp [fallbackRows, fallbackSubtasks]
  · intro hemp
    rcases hfb : fallback_planning ag env title desc u with ⟨r2, t2⟩
    obtain ⟨hr2, ht2⟩ := fallback_planning_empty_pool ag env title desc _ r2 t2 hemp hfb
    constructor
    · rw [hwf, hfb]
      exact hr2
    · simp only [hwf, hfb, hpt]
      rw [ht2, husub]

/-- Closed instance of `plan_task_with_fallback_fixed_plan` at both a
one-agent pool (three rows created, all assigned to agent 2) and an empty pool
(failure, nothing created), with a chat gateway that always fails. -/
theorem plan_task_with_fallback_fixed_plan_witness :
    ((plan_task_with_fallback ⟨1, "p", "m", [⟨2, "w", "wm", "wp", none⟩]⟩
        ⟨fun _ => .error "boom", fun _ => none⟩ "T" none ⟨[], [], 0, 0⟩).1 =
      .ok ⟨true, 3, "Created 3 subtasks using fallback planning (AI agent unavailable)"⟩ ∧
     (plan_task_with_fallback ⟨1, "p", "m", [⟨2, "w", "wm", "wp", none⟩]⟩
        ⟨fun _ => .error "boom", fun _ => none⟩ "T" none ⟨[], [], 0, 0⟩).2.subtasks =
      (plan_task ⟨1, "p", "m", [⟨2, "w", "wm", "wp", none⟩]⟩
        ⟨fun _ => .error "boom", fun _ => none⟩ "T" none ⟨[], [], 0, 0⟩).2.subtasks ++
        [⟨1, "Research and plan approach",
          "Gather requirements, research best practices, and develop a comprehensive execution plan",
          2, false⟩,
         ⟨1, "Execute primary deliverables",
          "Complete the main task deliverables according to the researched plan and requirements",
          2, false⟩,
         ⟨1, "Review and finalize output",
          "Quality check, refinements, and final validation of deliverables",
          2, false⟩]) ∧
    ((plan_task_with_fallback ⟨1, "p", "m", []⟩
        ⟨fun _ => .error "boom", fun _ => none⟩ "T" none ⟨[], [], 0, 0⟩).1 =
      .error "No agents available for fallback planning") :=
  ⟨(plan_task_with_fallback_fixed_plan ⟨1, "p", "m", [⟨2, "w", "wm", "wp", none⟩]⟩
      ⟨fun _ => .error "boom", fun _ => none⟩ "T" none ⟨[], [], 0, 0⟩
      (fun _ => rfl) "boom" rfl).1 rfl,
   ((plan_task_with_fallback_fixed_plan ⟨1, "p", "m", []⟩
      ⟨fun _ => .error "boom", fun _ => none⟩ "T" none ⟨[], [], 0, 0⟩
      (fun _ => rfl) "boom" rfl).2 rfl).1⟩

/-- C7: every progress event a `plan_task_with_fallback` run delivers carries
a progress value in `[0, 1]`, and the successive `"creating"` events (the one
emitted after the n-th successful subtask creation in the AI path) carry
exactly `0.2 + min(0.6 * n / 5, 0.6)`. -/
theorem progress_events_clamped (ag : PlanningAgent) (env : Env)
    (title : String) (desc : Option String) (s : PlanState) :
    ∃ evs k,
      (plan_task_with_fallback ag env title desc s).2.events = s.events ++ evs ∧
      (∀ ev ∈ evs, 0 ≤ ev.progress ∧ ev.progress ≤ 1) ∧
      (evs.filter (fun ev => ev.status == "creating")).map (fun ev => ev.progress) =
        (List.range k).map (fun i =>
          (0.2 : ℚ) + min (0.6 * (((i + 1 : Nat) : ℚ) / 5)) 0.6) := by
  rcases hw : plan_task_with_fallback ag env title desc s with ⟨r, t⟩
  obtain ⟨k, evs, h1, h2, h3⟩ := with_fallback_events ag env title desc s r t hw
  refine ⟨evs, k, h1, h2, ?_⟩
  rw [h3]
  unfold creatingProgresses
  apply List.map_congr_left
  intro i _
  simp [creatingProgress]

/-- C8: if an emission attempt fails during `plan_task` or during
`fallback_planning`, that planning attempt returns exactly the emission error;
equivalently, each of the two runs either delivered every emission it
attempted or stopped at its failed attempt, returning that attempt's error. -/
theorem emit_failure_aborts (ag : PlanningAgent) (env : Env) (title : String)
    (desc : Option String) (s : PlanState) :
    ((∀ i, s.emits ≤ i → i < (plan_task ag env title desc s).2.emits →
        env.emitOk i = none) ∨
      (∃ e, s.emits < (plan_task ag env title desc s).2.emits ∧
        env.emitOk ((plan_task ag env title desc s).2.emits - 1) = some e ∧
        (plan_task ag env title desc s).1 =
          .error ("Failed to emit progress: " ++ e))) ∧
    ((∀ i, s.emits ≤ i → i < (fallback_planning ag env title desc s).2.emits →
        env.emitOk i = none) ∨
      (∃ e, s.emits < (fallback_planning ag env title desc s).2.emits ∧
        env.emitOk ((fallback_planning ag env title desc s).2.emits - 1) = some e ∧
        (fallback_planning ag env title desc s).1 =
          .error ("Failed to emit progress: " ++ e))) := by
  constructor
  · rcases hpt : plan_task ag env title desc s with ⟨r, t⟩
    obtain ⟨k, rows, evs, -, -, -, -, -, -, -, p8, -⟩ :=
      plan_task_spec ag env title desc s r t hpt
    rcases p8 with hcl | ⟨e, hlt, hidx, herr, -⟩
    · exact Or.inl hcl
    · exact Or.inr ⟨e, hlt, hidx, herr⟩
  · rcases hfb : fallback_planning ag env title desc s with ⟨r, t⟩
    have hf := fallback_planning_faithful ag env title desc s r t hfb
    rcases hf with hcl | ⟨e, hlt, hidx, herr, -⟩
    · exact Or.inl hcl
    · exact Or.inr ⟨e, hlt, hidx, herr⟩

/-- C10: the subtask table only ever grows during a planning run: a failed
`plan_task` leaves its `k` committed rows in place, and a subsequent
successful fallback adds exactly its 3 rows after them. -/
theorem subtask_rows_persist (ag : PlanningAgent) (env : Env) (title : String)
    (desc : Option String) (s : PlanState) (hemit : ∀ i, env.emitOk i = none)
    (hne : ag.available_agents.isEmpty = false) (e : String)
    (herr : (plan_task ag env title desc s).1 = .error e) :
    ∃ rows r0 r1 r2,
      (plan_task ag env title desc s).2.subtasks = s.subtasks ++ rows ∧
      (plan_task_with_fallback ag env title desc s).2.subtasks =
        (s.subtasks ++ rows) ++ [r0, r1, r2] := by
  rcases hpt : plan_task ag env title desc s with ⟨r1, s1⟩
  rw [hpt] at herr
  simp only at herr
  subst herr
  obtain ⟨k, rows, evs, p1, -, -, -, -, -, -, -, -⟩ :=
    plan_task_spec ag env title desc s _ s1 hpt
  obtain ⟨u, hu, husub⟩ : ∃ u, emit_progress ag env s1 "fallback"
      "AI planning unavailable, using fallback..." 0.3 (some "Fallback") =
        (.ok (), u) ∧ u.subtasks = s1.subtasks :=
    ⟨_, emit_progress_ok ag env s1 _ _ _ _ (hemit _), rfl⟩
  have hwf : plan_task_with_fallback ag env title desc s =
      fallback_planning ag env title desc u := by
    unfold plan_task_with_fallback
    rw [hpt]
    simp only
    rw [hu]
  rcases hfb : fallback_planning ag env title desc u with ⟨r2, t2⟩
  obtain ⟨-, hsub⟩ := fallback_planning_run ag env title desc _ r2 t2 hne hemit hfb
  refine ⟨rows,
    ⟨ag.task_id, "Research and plan approach",
      "Gather requirements, research best practices, and develop a comprehensive execution plan",
      (ag.available_agents.getD (0 % ag.available_agents.length) default).id, false⟩,
    ⟨ag.task_id, "Execute primary deliverables",
      "Complete the main task deliverables according to the researched plan and requirements",
      (ag.available_agents.getD (1 % ag.available_agents.length) default).id, false⟩,
    ⟨ag.task_id, "Review and finalize output",
      "Quality check, refinements, and final validation of deliverables",
      (ag.available_agents.getD (2 % ag.available_agents.length) default).id, false⟩,
    p1, ?_⟩
  simp only [hwf, hfb]
  rw [hsub, husub, p1]
  simp [fallbackRows, fallbackSubtasks]

/-- Closed instance of `subtask_rows_persist` with a failing chat gateway and
a one-agent pool: zero AI rows persist and the three fallback rows follow. -/
theorem subtask_rows_persist_witness :
    ∃ rows r0 r1 r2,
      (plan_task ⟨1, "p", "m", [⟨2, "w", "wm", "wp", none⟩]⟩
          ⟨fun _ => .error "boom", fun _ => none⟩ "T" none ⟨[], [], 0, 0⟩).2.subtasks =
        ([] : List SubtaskRow) ++ rows ∧
      (plan_task_with_fallback ⟨1, "p", "m", [⟨2, "w", "wm", "wp", none⟩]⟩
          ⟨fun _ => .error "boom", fun _ => none⟩ "T" none ⟨[], [], 0, 0⟩).2.subtasks =
        (([] : List SubtaskRow) ++ rows) ++ [r0, r1, r2] :=
  subtask_rows_persist ⟨1, "p", "m", [⟨2, "w", "wm", "wp", none⟩]⟩
    ⟨fun _ => .error "boom", fun _ => none⟩ "T" none ⟨[], [], 0, 0⟩
    (fun _ => rfl) rfl "boom" rfl

end Orcas
